import Mathlib

/-!
# PathPlanner demo front end (`demo/demo.cpp`)

A shallow embedding of the command-line front end of the PathPlanner
repository: trajectory loading, terminal pinning, option parsing, the call
into the engine and the gnuplot output.  The engine (`PathPlanner.h`) is not
part of the embedded sources; what the front end uses of it is either a
parameter of the model or modelled from the specification and marked so.

Conventions.
* Coordinates are values of an arbitrary type `R` (the source uses `double`);
  nothing in the front end computes with them.
* A `double` produced by `std::stod` is kept as the exact value of the
  literal that was read (`Double`), before rounding to binary64.
* `size_t` arithmetic is done in `Nat` modulo `2 ^ 64`.
* C++ exceptions are values of `Exn`; element access outside a vector is the
  abort `out_of_bounds`.
-/

set_option exponentiation.threshold 2000

deriving instance DecidableEq for Except

namespace PathPlannerDemo

/-! ## Data model -/

/-- Modelled from the spec: `Position` of PathPlanner.h, a 2D point `(x, y)`
carrying an integer tag (0 = free, 1 = pinned).  The user payload of the
generic parameter is not touched by the front end and is left out. -/
structure Position (R : Type) where
  tag : Int
  x : R
  y : R
deriving DecidableEq, Repr

/-- Modelled from the spec: `Path` of PathPlanner.h, an ordered sequence of
`Position`. -/
abbrev Path (R : Type) := List (Position R)

/-- Modelled from the spec: `Position::make_tagged(tag, x, y)` of
PathPlanner.h builds the point `(x, y)` with the given tag. -/
def Position.make_tagged {R : Type} (tag : Int) (x y : R) : Position R :=
  { tag := tag, x := x, y := y }

/-- The exceptions of the C++ standard library that the front end throws or
catches.  `invalid_argument` and `out_of_range` derive from `logic_error`,
not from `runtime_error`. -/
inductive Exn where
  | runtime_error (what : String)
  | invalid_argument (what : String)
  | out_of_range (what : String)
deriving DecidableEq, Repr

/-- Ways in which a piece of the program stops without a value. -/
inductive Abort where
  | throw (e : Exn)
  | out_of_bounds (index size : Nat)
  | no_fuel
deriving DecidableEq, Repr

/-! ## Input streams and `load_trajectory` -/

/-- One whitespace-delimited item of an input stream, as seen by
`operator>>(double&)`: a number, or text from which no number can be read. -/
inductive Token (R : Type) where
  | num (v : R)
  | junk
deriving DecidableEq, Repr

/-- An input stream: the items not yet read and the fail bit. -/
structure IStream (R : Type) where
  toks : List (Token R)
  fail : Bool
deriving DecidableEq, Repr

/-- The extraction `i >> x` for a `double`: does nothing on a failed stream,
sets the fail bit at end of input or at a non-numeric item, and otherwise
consumes one number. -/
def IStream.extract {R : Type} (i : IStream R) : IStream R × Option R :=
  if i.fail then (i, none)
  else
    match i.toks with
    | Token.num v :: rest => ({ toks := rest, fail := false }, some v)
    | _ => ({ i with fail := true }, none)

/-- The loop `while (i >> x >> y) res.push_back(make_tagged(0, x, y))`,
one iteration per unit of fuel. -/
def load_loop {R : Type} : Nat → IStream R → Path R → Option (Path R)
  | 0, _, _ => none
  | fuel + 1, i, res =>
    let r1 := i.extract
    let r2 := r1.1.extract
    if r2.1.fail then some res
    else
      match r1.2, r2.2 with
      | some x, some y => load_loop fuel r2.1 (res ++ [Position.make_tagged 0 x y])
      | _, _ => some res

/-- The function `load_trajectory` of demo.cpp. -/
def load_trajectory {R : Type} (i : IStream R) : Option (Path R) :=
  load_loop (i.toks.length + 1) i []

/-! ## Terminal pinning in `main` -/

/-- Subtraction of `size_t` values. -/
def size_t_sub (a b : Nat) : Nat := (a + 2 ^ 64 - b % 2 ^ 64) % 2 ^ 64

/-- Overwrite the tag of the element at position `idx` (no effect past the
end). -/
def setTag {R : Type} : Path R → Nat → Int → Path R
  | [], _, _ => []
  | p :: ps, 0, t => { p with tag := t } :: ps
  | p :: ps, idx + 1, t => p :: setTag ps idx t

/-- The assignment `traj[idx].tag = t`: defined only for `idx < traj.size()`. -/
def assign_tag {R : Type} (traj : Path R) (idx : Nat) (t : Int) : Except Abort (Path R) :=
  if idx < traj.length then Except.ok (setTag traj idx t)
  else Except.error (Abort.out_of_bounds idx traj.length)

/-- The two statements `traj[traj.size() - 2].tag = 1; traj.back().tag = 1;`
of `main`; `back()` is the element at `size() - 1`. -/
def pin_last_two {R : Type} (traj : Path R) : Except Abort (Path R) := do
  let traj ← assign_tag traj (size_t_sub traj.length 2) 1
  let traj ← assign_tag traj (size_t_sub traj.length 1) 1
  pure traj

/-! ## `std::stod` and `std::stoi`

The conversions follow the C library functions they are defined through
(`strtod`, and `strtol` in base 10): leading white space is skipped, the
longest prefix that has the expected form is converted, and whatever follows
it is ignored.  The demo never asks for the end position, so only the value
and the two failures are modelled: `invalid_argument` when no conversion can
be performed and `out_of_range` when the library reports `ERANGE`.  The
`what()` texts are the ones of libstdc++, the name of the function. -/

/-- The exact value read by `std::stod`, before rounding to binary64:
`(-1)^neg * num / den`, an infinity, or a NaN. -/
inductive Double where
  | finite (neg : Bool) (num den : Nat)
  | inf (neg : Bool)
  | nan (neg : Bool)
deriving DecidableEq, Repr

/-- The predicate `isspace` in the "C" locale. -/
def isspace (c : Char) : Bool :=
  c.toNat = 32 || (9 ≤ c.toNat && c.toNat ≤ 13)

/-- Drop leading white space. -/
def skip_space : List Char → List Char
  | [] => []
  | c :: cs => if isspace c then skip_space cs else c :: cs

/-- Value of a decimal digit. -/
def decDigit (c : Char) : Option Nat :=
  if 48 ≤ c.toNat && c.toNat ≤ 57 then some (c.toNat - 48) else none

/-- Value of a hexadecimal digit. -/
def hexDigit (c : Char) : Option Nat :=
  if 48 ≤ c.toNat && c.toNat ≤ 57 then some (c.toNat - 48)
  else if 97 ≤ c.toNat && c.toNat ≤ 102 then some (c.toNat - 87)
  else if 65 ≤ c.toNat && c.toNat ≤ 70 then some (c.toNat - 55)
  else none

/-- Read the longest run of digits in the given base, continuing from the
accumulated value `acc` and digit count `cnt`; returns the value, the number
of digits read so far and the unread rest. -/
def read_digits (base : Nat) (digit : Char → Option Nat) :
    List Char → Nat → Nat → Nat × Nat × List Char
  | [], acc, cnt => (acc, cnt, [])
  | c :: cs, acc, cnt =>
    match digit c with
    | some d => read_digits base digit cs (acc * base + d) (cnt + 1)
    | none => (acc, cnt, c :: cs)

/-- An optional sign: whether it is a minus, and the rest. -/
def read_sign : List Char → Bool × List Char
  | '-' :: cs => (true, cs)
  | '+' :: cs => (false, cs)
  | cs => (false, cs)

/-- An optional exponent part: the marker (either case), an optional sign and
at least one decimal digit.  Without a digit nothing is consumed and the
exponent is 0. -/
def read_exponent (lower upper : Char) : List Char → Int
  | [] => 0
  | c :: cs =>
    if c = lower ∨ c = upper then
      let s := read_sign cs
      let r := read_digits 10 decDigit s.2 0 0
      if r.2.1 = 0 then 0
      else if s.1 then - (r.1 : Int) else (r.1 : Int)
    else 0

/-- The value `mant * base ^ e` as a fraction. -/
def scale (neg : Bool) (mant base : Nat) (e : Int) : Double :=
  if 0 ≤ e then Double.finite neg (mant * base ^ e.toNat) 1
  else Double.finite neg mant (base ^ (- e).toNat)

/-- A mantissa `digits [. digits]` with at least one digit, followed by an
optional exponent; `none` when there is no digit.  `bits` is the weight of one
fractional digit as a power of `ebase` (1 for decimal, 4 for hexadecimal). -/
def read_mantissa (neg : Bool) (base : Nat) (digit : Char → Option Nat)
    (ebase bits : Nat) (lower upper : Char) (cs : List Char) : Option Double :=
  let ip := read_digits base digit cs 0 0
  let fp :=
    match ip.2.2 with
    | '.' :: rest => read_digits base digit rest ip.1 ip.2.1
    | _ => ip
  if fp.2.1 = 0 then none
  else
    let frac := fp.2.1 - ip.2.1
    some (scale neg fp.1 ebase (read_exponent lower upper fp.2.2 - ((bits * frac : Nat) : Int)))

/-- Does the text start, ignoring case, with the given lower-case word? -/
def starts_with_ci : List Char → List Char → Bool
  | [], _ => true
  | _ :: _, [] => false
  | w :: ws, c :: cs => (c.toLower = w) && starts_with_ci ws cs

/-- The subject sequence of `strtod` after white space: an optional sign, then
a hexadecimal or decimal floating constant, `inf`/`infinity` or `nan`. -/
def strtod_subject (cs : List Char) : Option Double :=
  let s := read_sign cs
  let hex : Option Double :=
    match s.2 with
    | '0' :: x :: rest =>
      if x = 'x' ∨ x = 'X' then read_mantissa s.1 16 hexDigit 2 4 'p' 'P' rest else none
    | _ => none
  match hex with
  | some d => some d
  | none =>
    match read_mantissa s.1 10 decDigit 10 1 'e' 'E' s.2 with
    | some d => some d
    | none =>
      if starts_with_ci ['i', 'n', 'f'] s.2 then some (Double.inf s.1)
      else if starts_with_ci ['n', 'a', 'n'] s.2 then some (Double.nan s.1)
      else none

/-- Whether `strtod` reports `ERANGE` for the value, as glibc does on x86-64
in the default rounding mode.  Overflow: the value is at least
`2^1024 - 2^970`, from where it rounds past the largest binary64 number.
Underflow: the value is not zero, is tiny after rounding, that is below
`2^-1022 - 2^-1076` (from there on it rounds to the smallest normal number),
and is not a multiple of `2^-1074`, hence not exactly representable. -/
def Double.erange : Double → Bool
  | Double.finite _ num den =>
    decide ((2 ^ 1024 - 2 ^ 970) * den ≤ num) ||
      (decide (num ≠ 0) && decide (num * 2 ^ 1076 < (2 ^ 54 - 1) * den) &&
        decide ((num * 2 ^ 1074) % den ≠ 0))
  | _ => false

/-- The function `std::stod(str)`. -/
def stod (str : String) : Except Exn Double :=
  match strtod_subject (skip_space str.data) with
  | none => Except.error (Exn.invalid_argument "stod")
  | some d => if d.erange then Except.error (Exn.out_of_range "stod") else Except.ok d

/-- The function `std::stoi(str)` (base 10, 32-bit `int`). -/
def stoi (str : String) : Except Exn Int :=
  let s := read_sign (skip_space str.data)
  let r := read_digits 10 decDigit s.2 0 0
  if r.2.1 = 0 then Except.error (Exn.invalid_argument "stoi")
  else
    let v : Int := if s.1 then - (r.1 : Int) else (r.1 : Int)
    if v < - 2 ^ 31 ∨ 2 ^ 31 - 1 < v then Except.error (Exn.out_of_range "stoi")
    else Except.ok v

/-! ## Command-line values and `get_params` -/

/-- The type `docopt::value`: empty, or one of four kinds of content. -/
inductive Value where
  | empty
  | bool (b : Bool)
  | long (n : Int)
  | string (s : String)
  | stringList (l : List String)
deriving DecidableEq, Repr

/-- The name docopt gives a kind in its cast error. -/
def Value.kindAsString : Value → String
  | Value.empty => "empty"
  | Value.bool _ => "bool"
  | Value.long _ => "long"
  | Value.string _ => "string"
  | Value.stringList _ => "string-list"

/-- The test `value::isString()`. -/
def Value.isString : Value → Bool
  | Value.string _ => true
  | _ => false

/-- The conversion `explicit operator bool()`: whether the value is set. -/
def Value.toBool : Value → Bool
  | Value.empty => false
  | _ => true

/-- The accessor `value::asString()`: throws `runtime_error` on another kind. -/
def Value.asString : Value → Except Exn String
  | Value.string s => Except.ok s
  | v => Except.error
      (Exn.runtime_error ("Illegal cast to string; type is actually " ++ v.kindAsString))

/-- The argument map `std::map<std::string, docopt::value>`. -/
abbrev Args := List (String × Value)

/-- The lookup `args[key]`: the stored value, or an empty one for a new key. -/
def Args.index : Args → String → Value
  | [], _ => Value.empty
  | (k, v) :: rest, key => if k = key then v else Args.index rest key

/-- Modelled from the spec: `PathPlanner::Params` of PathPlanner.h, the
numeric knobs of §6, floating point except `speed_step_mult` and the pass
count.  Only the fields that demo.cpp assigns are listed. -/
structure Params where
  path_alpha : Double
  path_beta : Double
  speed_alpha : Double
  speed_beta : Double
  robot_width : Double
  time_step : Double
  max_speed : Double
  max_acceleration : Double
  dist_step : Double
  speed_step_mult : Int
  final_acc_time : Double
  traj_smooth_pass : Int
deriving DecidableEq, Repr

/-- The `try` block of `get_params`.  `dflt` is the default-constructed
`Params` and `cvt` the implicit conversion of a `double` to the type of
`speed_step_mult`; both come from PathPlanner.h. -/
def get_params_try (dflt : Params) (cvt : Double → Int) (args : Args) : Except Exn Params := do
  let params := dflt
  let path_alpha := args.index "--path_alpha"
  let params ←
    (if path_alpha.isString then
      (do
        let s ← path_alpha.asString
        let v ← stod s
        pure { params with path_alpha := v })
    else pure params)
  let path_beta := args.index "--path_beta"
  let params ←
    (if path_beta.isString then
      (do
        let s ← path_beta.asString
        let v ← stod s
        pure { params with path_beta := v })
    else pure params)
  let speed_alpha := args.index "--speed_alpha"
  let params ←
    (if speed_alpha.isString then
      (do
        let s ← speed_alpha.asString
        let v ← stod s
        pure { params with speed_alpha := v })
    else pure params)
  let speed_beta := args.index "--speed_beta"
  let params ←
    (if speed_beta.isString then
      (do
        let s ← speed_beta.asString
        let v ← stod s
        pure { params with speed_beta := v })
    else pure params)
  let robot_width := args.index "--robot_width"
  let params ←
    (if robot_width.isString then
      (do
        let s ← robot_width.asString
        let v ← stod s
        pure { params with robot_width := v })
    else pure params)
  let time_step := args.index "--time_step"
  let params ←
    (if time_step.isString then
      (do
        let s ← time_step.asString
        let v ← stod s
        pure { params with time_step := v })
    else pure params)
  let max_speed := args.index "--max_speed"
  let params ←
    (if max_speed.isString then
      (do
        let s ← max_speed.asString
        let v ← stod s
        pure { params with max_speed := v })
    else pure params)
  let max_acceleration := args.index "--max_acceleration"
  let params ←
    (if max_acceleration.isString then
      (do
        let s ← max_acceleration.asString
        let v ← stod s
        pure { params with max_acceleration := v })
    else pure params)
  let dist_step := args.index "--dist_step"
  let params ←
    (if dist_step.isString then
      (do
        let s ← dist_step.asString
        let v ← stod s
        pure { params with dist_step := v })
    else pure params)
  let speed_step_mul := args.index "--speed_step_mult"
  let params ←
    (if speed_step_mul.isString then
      (do
        let s ← speed_step_mul.asString
        let v ← stod s
        pure { params with speed_step_mult := cvt v })
    else pure params)
  let final_acc := args.index "--final_acc"
  let params ←
    (if final_acc.isString then
      (do
        let s ← final_acc.asString
        let v ← stod s
        pure { params with final_acc_time := v })
    else pure params)
  let smooth_pass := args.index "--smooth_pass"
  let params ←
    (if smooth_pass.isString then
      (do
        let s ← smooth_pass.asString
        let v ← stoi s
        pure { params with traj_smooth_pass := v })
    else pure params)
  pure params

/-- The function `get_params` of demo.cpp: the `try` block and its two
handlers, for `runtime_error` and for `invalid_argument`.  Any other
exception leaves the function as it is. -/
def get_params (dflt : Params) (cvt : Double → Int) (args : Args) : Except Exn Params :=
  match get_params_try dflt cvt args with
  | Except.ok params => Except.ok params
  | Except.error (Exn.runtime_error what) =>
    Except.error (Exn.runtime_error ("Invalid values for parameters! " ++ what))
  | Except.error (Exn.invalid_argument what) =>
    Except.error (Exn.runtime_error ("Invalid values for parameters! " ++ what))
  | Except.error e => Except.error e

/-! ## Output and `main` -/

/-- The function `gnuplot_output`: for each point, in order, `x`, a tab, `y`
and a newline are appended to the stream.  `fmt` is the text that
`operator<<` produces for a `double`. -/
def gnuplot_output {R : Type} (fmt : R → List Char) (o : List Char) (p : Path R) : List Char :=
  p.foldl (fun o x => o ++ fmt x.x ++ ['\t'] ++ fmt x.y ++ ['\n']) o

/-- The planner object after `compute()`, seen through the eight accessors
that `main` reads. -/
structure Engine (R : Type) where
  control_points : Path R
  get_path : Path R
  get_left : Path R
  get_right : Path R
  get_velocity : Path R
  get_left_velocity : Path R
  get_right_velocity : Path R
  get_reconstructed : Path R

/-- Everything `main` depends on: the parsed command line, the parts of
PathPlanner.h it uses (`dflt`, `cvt`, and `compute` for constructing the
planner, assigning its control points and running it), the readable input
files, the output files that can be opened, and number formatting. -/
structure World (R : Type) where
  args : Args
  dflt : Params
  cvt : Double → Int
  compute : Params → Path R → Except Exn (Engine R)
  input : String → Option (List (Token R))
  writable : String → Bool
  fmt : R → List Char

/-- A thrown exception as an abort. -/
def liftExn {α : Type} : Except Exn α → Except Abort α
  | Except.ok a => Except.ok a
  | Except.error e => Except.error (Abort.throw e)

/-- A fuelled result as an abort. -/
def liftFuel {α : Type} : Option α → Except Abort α
  | some a => Except.ok a
  | none => Except.error Abort.no_fuel

/-- The function `open_in_file`. -/
def open_in_file {R : Type} (w : World R) (name : String) : Except Abort (IStream R) :=
  match w.input name with
  | some toks => Except.ok { toks := toks, fail := false }
  | none => Except.error (Abort.throw (Exn.runtime_error ("Cannot open output file: " ++ name ++ "!")))

/-- The function `open_out_file`; the open stream is identified by its name. -/
def open_out_file {R : Type} (w : World R) (name : String) : Except Abort String :=
  if w.writable name then Except.ok name
  else Except.error (Abort.throw (Exn.runtime_error ("Cannot open output file: " ++ name ++ "!")))

/-- The control points of `main`: the loaded trajectory with its last two
points pinned (lines 139 to 141), the value later assigned to
`p.control_points()`. -/
def main_control_points {R : Type} (i : IStream R) : Except Abort (Path R) := do
  let traj ← liftFuel (load_trajectory i)
  pin_last_two traj

/-- The output directory with a trailing slash; `back()` of an empty string is
an access outside the string. -/
def with_slash (output_dir : String) : Except Abort String :=
  match output_dir.data.getLast? with
  | none => Except.error (Abort.out_of_bounds (size_t_sub 0 1) 0)
  | some c => if c ≠ '/' then Except.ok (output_dir.push '/') else Except.ok output_dir

/-- The `try` block of `main`.  The result is the list of files written, each
with its content, in the order of the `gnuplot_output` calls.  What is printed
on standard output is not modelled. -/
def main_body {R : Type} (w : World R) : Except Abort (List (String × List Char)) := do
  let name ← liftExn (w.args.index "<trajectory>").asString
  let ctrl_p ← open_in_file w name
  let traj ← main_control_points ctrl_p
  let params ← liftExn (get_params w.dflt w.cvt w.args)
  let p ← liftExn (w.compute params traj)
  let output_dir ← liftExn (w.args.index "<output_dir>").asString
  let output_dir ← with_slash output_dir
  let control_points ← open_out_file w (output_dir ++ "control_points.txt")
  let trajectory ← open_out_file w (output_dir ++ "trajectory_points.txt")
  let envir ← open_out_file w (output_dir ++ "environment_points.txt")
  let left ← open_out_file w (output_dir ++ "left_points.txt")
  let right ← open_out_file w (output_dir ++ "right_points.txt")
  let center_vel ← open_out_file w (output_dir ++ "velocity.txt")
  let left_vel ← open_out_file w (output_dir ++ "left_velocity.txt")
  let right_vel ← open_out_file w (output_dir ++ "right_velocity.txt")
  let recon ← open_out_file w (output_dir ++ "reconstructed_points.txt")
  let environment_file := w.args.index "--envir"
  let environment ←
    (if environment_file.toBool then
      (do
        let ename ← liftExn environment_file.asString
        let f : IStream R :=
          match w.input ename with
          | some toks => { toks := toks, fail := false }
          | none => { toks := [], fail := true }
        liftFuel (load_trajectory f))
    else pure [])
  pure
    [ (control_points, gnuplot_output w.fmt [] p.control_points),
      (trajectory, gnuplot_output w.fmt [] p.get_path),
      (left, gnuplot_output w.fmt [] p.get_left),
      (right, gnuplot_output w.fmt [] p.get_right),
      (center_vel, gnuplot_output w.fmt [] p.get_velocity),
      (left_vel, gnuplot_output w.fmt [] p.get_left_velocity),
      (right_vel, gnuplot_output w.fmt [] p.get_right_velocity),
      (recon, gnuplot_output w.fmt [] p.get_reconstructed),
      (envir, gnuplot_output w.fmt [] environment) ]

/-- How a run of the program ends. -/
inductive Run where
  | success (files : List (String × List Char))
  | failure (stderr : String)
  | terminate (e : Exn)
  | undefined (index size : Nat)
  | diverge
deriving DecidableEq, Repr

/-- The function `main`: status 0 with the files written; for a
`runtime_error`, its text and a newline on standard error and status 1; any
other exception is not caught. -/
def main {R : Type} (w : World R) : Run :=
  match main_body w with
  | Except.ok files => Run.success files
  | Except.error (Abort.throw (Exn.runtime_error what)) => Run.failure (what ++ "\n")
  | Except.error (Abort.throw e) => Run.terminate e
  | Except.error (Abort.out_of_bounds index size) => Run.undefined index size
  | Except.error Abort.no_fuel => Run.diverge

/-! ## The path smoother, from the specification -/

/-- Modelled from the spec: the update of one point in §4.1 (the smoother of
PathPlanner.h is not among the embedded sources),
`p[i] ← p[i] + path_alpha·(orig[i] − p[i]) + path_beta·(p[i-1] + p[i+1] − 2·p[i])`,
applied to both coordinates; the tag is kept. -/
def relax_point {R : Type} [Add R] [Sub R] [Mul R] [OfNat R 2]
    (alpha beta : R) (orig prev cur next : Position R) : Position R :=
  { cur with
    x := cur.x + alpha * (orig.x - cur.x) + beta * (prev.x + next.x - 2 * cur.x)
    y := cur.y + alpha * (orig.y - cur.y) + beta * (prev.y + next.y - 2 * cur.y) }

/-- Modelled from the spec: the smoother's treatment of index `i` in §4.1: a
pinned point (tag 1) is excluded from update, a free point is replaced in
place by its relaxed position. -/
def relax_at {R : Type} [Add R] [Sub R] [Mul R] [OfNat R 2]
    (alpha beta : R) (orig p : Path R) (i : Nat) : Path R :=
  match orig[i]?, p[i - 1]?, p[i]?, p[i + 1]? with
  | some o, some a, some c, some b =>
    if c.tag = 1 then p else p.set i (relax_point alpha beta o a c b)
  | _, _, _, _ => p

/-- Modelled from the spec: one iteration of §4.1 over the interior indices
`1 .. n-2`, in increasing order. -/
def smooth_pass {R : Type} [Add R] [Sub R] [Mul R] [OfNat R 2]
    (alpha beta : R) (orig p : Path R) : Path R :=
  (List.range (p.length - 2)).foldl (fun q k => relax_at alpha beta orig q (k + 1)) p

/-- Modelled from the spec: `smooth(raw, path_alpha, path_beta, passes)` of
§4.1, a fixed budget of `passes` iterations started from the raw path. -/
def smooth {R : Type} [Add R] [Sub R] [Mul R] [OfNat R 2]
    (raw : Path R) (alpha beta : R) : Nat → Path R
  | 0 => raw
  | passes + 1 => smooth_pass alpha beta raw (smooth raw alpha beta passes)

/-! ## Auxiliary definitions for the statements -/

/-- The points made from consecutive pairs of a list of numbers. -/
def pairs {R : Type} : List R → Path R
  | x :: y :: rest => Position.make_tagged 0 x y :: pairs rest
  | _ => []

/-- The twelve options that `get_params` reads, in the order it reads them. -/
def numeric_options : List String :=
  ["--path_alpha", "--path_beta", "--speed_alpha", "--speed_beta", "--robot_width",
   "--time_step", "--max_speed", "--max_acceleration", "--dist_step", "--speed_step_mult",
   "--final_acc", "--smooth_pass"]

/-- The conversion `get_params` applies to the string of an option, without
its value: `std::stoi` for `--smooth_pass`, `std::stod` for the others. -/
def option_conversion (key s : String) : Except Exn Unit :=
  if key = "--smooth_pass" then (stoi s).map (fun _ => ()) else (stod s).map (fun _ => ())

/-- The name of the conversion `get_params` applies to an option, which is
also the `what()` text of its exceptions. -/
def conversion_name (key : String) : String :=
  if key = "--smooth_pass" then "stoi" else "stod"

/-- Whether the text begins with a decimal digit, or with a point followed by
a decimal digit. -/
def starts_decimal : List Char → Bool
  | c :: d :: _ => (decDigit c).isSome || (c = '.' && (decDigit d).isSome)
  | [c] => (decDigit c).isSome
  | [] => false

/-- Whether `std::stod` finds a number at the start of the text: after white
space and an optional sign the text begins with a digit, with a point
followed by a digit, or, in any letter case, with `inf` or `nan`. -/
def starts_number (cs : List Char) : Bool :=
  starts_decimal (read_sign (skip_space cs)).2 ||
    starts_with_ci ['i', 'n', 'f'] (read_sign (skip_space cs)).2 ||
    starts_with_ci ['n', 'a', 'n'] (read_sign (skip_space cs)).2

/-- Whether `std::stoi` finds a number at the start of the text: after white
space and an optional sign the text begins with a digit. -/
def starts_integer (cs : List Char) : Bool :=
  match (read_sign (skip_space cs)).2 with
  | c :: _ => (decDigit c).isSome
  | [] => false

/-- Whether the conversion of the option finds a number at the start of the
string. -/
def has_number (key s : String) : Bool :=
  if key = "--smooth_pass" then starts_integer s.data else starts_number s.data

/-- The options that `get_params` reads before the given one. -/
def options_before (key : String) : List String :=
  numeric_options.takeWhile (fun k => decide (k ≠ key))

/-- Whether no option read before the given one is a string whose conversion
reports a value out of range. -/
def in_range_before (args : Args) (key : String) : Bool :=
  (options_before key).all fun k =>
    match args.index k with
    | Value.string s =>
      match option_conversion k s with
      | Except.error (Exn.out_of_range _) => false
      | _ => true
    | _ => true

/-- One block of `get_params` in closed form: an option that is a string is
converted and assigned (`set`), any other value leaves the parameters `p`
alone. -/
def step {α : Type} (v : Value) (conv : String → Except Exn α) (set : α → Params)
    (p : Params) : Except Exn Params :=
  match v with
  | Value.string s =>
    match conv s with
    | Except.ok a => Except.ok (set a)
    | Except.error e => Except.error e
  | _ => Except.ok p

/-- What `get_params` guarantees for one field: when the option is a string
the field is the converted string, otherwise the field is the default. -/
def FieldSpec {α : Type} (v : Value) (conv : String → Except Exn α) (field dflt : α) : Prop :=
  match v with
  | Value.string s => conv s = Except.ok field
  | _ => field = dflt

/-- The lines of a text, each ended by a newline (an unfinished last line
counts when it is not empty); `cur` is the line being read. -/
def lines_from : List Char → List Char → List (List Char)
  | [], cur => if cur = [] then [] else [cur]
  | c :: cs, cur => if c = '\n' then cur :: lines_from cs [] else lines_from cs (cur ++ [c])

/-- The text of one point in the gnuplot files, without the newline. -/
def point_line {R : Type} (fmt : R → List Char) (q : Position R) : List Char :=
  fmt q.x ++ ['\t'] ++ fmt q.y

/-- The nine file names of `main`, in the order of the `gnuplot_output` calls. -/
def output_names (dir : String) : List String :=
  [dir ++ "control_points.txt", dir ++ "trajectory_points.txt", dir ++ "left_points.txt",
   dir ++ "right_points.txt", dir ++ "velocity.txt", dir ++ "left_velocity.txt",
   dir ++ "right_velocity.txt", dir ++ "reconstructed_points.txt",
   dir ++ "environment_points.txt"]

/-! ## Concrete inputs for the evaluations -/

/-- The number zero as a `Double`. -/
def Double.zero : Double := Double.finite false 0 1

/-- A `Params` value with every field zero, standing in for the defaults of
PathPlanner.h in the evaluations. -/
def zeroParams : Params :=
  { path_alpha := Double.zero, path_beta := Double.zero, speed_alpha := Double.zero,
    speed_beta := Double.zero, robot_width := Double.zero, time_step := Double.zero,
    max_speed := Double.zero, max_acceleration := Double.zero, dist_step := Double.zero,
    speed_step_mult := 0, final_acc_time := Double.zero, traj_smooth_pass := 0 }

/-- Truncation toward zero of a finite value; 0 for infinities and NaN. -/
def truncate : Double → Int
  | Double.finite neg num den => if neg then - ((num / den : Nat) : Int) else ((num / den : Nat) : Int)
  | _ => 0

/-- A world over integer coordinates: the trajectory file `t.txt` holds the
given items, the output directory is `out`, every file can be written, and
the engine returns its control points for every sequence. -/
def sampleWorld (toks : List (Token Int)) (options : Args) : World Int :=
  { args := [("<trajectory>", Value.string "t.txt"), ("<output_dir>", Value.string "out")] ++ options
    dflt := zeroParams
    cvt := truncate
    compute := fun _ t => Except.ok
      { control_points := t, get_path := t, get_left := t, get_right := t, get_velocity := t,
        get_left_velocity := t, get_right_velocity := t, get_reconstructed := t }
    input := fun n => if n = "t.txt" then some toks else none
    writable := fun _ => true
    fmt := fun z => (toString z).data }

/-- Three options on the command line: a speed, a pass count, and a stride
with a fractional part. -/
def sampleOptions : Args :=
  [("--max_speed", Value.string "2.5"), ("--smooth_pass", Value.string "7"),
   ("--speed_step_mult", Value.string "3.9")]

/-- The parameters that `sampleOptions` produce from `zeroParams`. -/
def sampleParams : Params :=
  { zeroParams with
    max_speed := Double.finite false 25 10, speed_step_mult := 3, traj_smooth_pass := 7 }

/-- A trajectory file with the three points `(1, 2)`, `(3, 4)`, `(5, 6)`. -/
def threePoints : List (Token Int) :=
  [Token.num 1, Token.num 2, Token.num 3, Token.num 4, Token.num 5, Token.num 6]

/-- The message of `get_params` for a floating-point option without a number. -/
def stodMessage : String := "Invalid values for parameters! stod"

/-- The files written for the three-point trajectory by `sampleWorld`. -/
def sampleFiles : List (String × List Char) :=
  [ ("out/control_points.txt", "1\t2\n3\t4\n5\t6\n".data),
    ("out/trajectory_points.txt", "1\t2\n3\t4\n5\t6\n".data),
    ("out/left_points.txt", "1\t2\n3\t4\n5\t6\n".data),
    ("out/right_points.txt", "1\t2\n3\t4\n5\t6\n".data),
    ("out/velocity.txt", "1\t2\n3\t4\n5\t6\n".data),
    ("out/left_velocity.txt", "1\t2\n3\t4\n5\t6\n".data),
    ("out/right_velocity.txt", "1\t2\n3\t4\n5\t6\n".data),
    ("out/reconstructed_points.txt", "1\t2\n3\t4\n5\t6\n".data),
    ("out/environment_points.txt", []) ]

/-- Two options on the command line: a speed that is a word, and, read after
it, a distance step out of range. -/
def textOptions : Args :=
  [("--max_speed", Value.string "fast"), ("--dist_step", Value.string "1e999")]

/-! ## Properties -/

/-! ### Loading -/

theorem load_loop_pairs {R : Type} (rest : List (Token R))
    (hrest : rest = [] ∨ ∃ t, rest = Token.junk :: t) :
    ∀ (fuel : Nat) (nums : List R) (acc : Path R), nums.length / 2 < fuel →
      load_loop fuel { toks := nums.map Token.num ++ rest, fail := false } acc
        = some (acc ++ pairs nums) := by
  intro fuel
  induction fuel with
  | zero => intro nums acc h; omega
  | succ n ih =>
    intro nums acc h
    match nums with
    | [] =>
      rcases hrest with rfl | ⟨t, rfl⟩ <;> simp [load_loop, IStream.extract, pairs]
    | [x] =>
      rcases hrest with rfl | ⟨t, rfl⟩ <;> simp [load_loop, IStream.extract, pairs]
    | x :: y :: t =>
      have hlt : t.length / 2 < n := by
        simp only [List.length_cons] at h
        omega
      have := ih t (acc ++ [Position.make_tagged 0 x y]) hlt
      simp [load_loop, IStream.extract, pairs, this]

theorem pairs_length {R : Type} : ∀ (nums : List R), (pairs nums).length = nums.length / 2
  | [] => by simp [pairs]
  | [_] => by simp [pairs]
  | x :: y :: t => by
    simp only [pairs, List.length_cons, pairs_length t]
    omega

theorem pairs_get {R : Type} : ∀ (nums : List R) (i : Nat), i < nums.length / 2 →
    ∃ x y, nums[2 * i]? = some x ∧ nums[2 * i + 1]? = some y ∧
      (pairs nums)[i]? = some { tag := 0, x := x, y := y }
  | [], i, h => by simp at h
  | [_], i, h => absurd h (by simp)
  | x :: y :: t, 0, _ => ⟨x, y, by simp [pairs, Position.make_tagged]⟩
  | x :: y :: t, i + 1, h => by
    have hlt : i < t.length / 2 := by
      simp only [List.length_cons] at h
      omega
    obtain ⟨a, b, ha, hb, hp⟩ := pairs_get t i hlt
    refine ⟨a, b, ?_, ?_, ?_⟩
    · have : 2 * (i + 1) = (2 * i) + 1 + 1 := by ring
      rw [this]; simpa using ha
    · have : 2 * (i + 1) + 1 = (2 * i + 1) + 1 + 1 := by ring
      rw [this]; simpa using hb
    · simpa [pairs] using hp

theorem load_loop_total {R : Type} :
    ∀ (fuel : Nat) (i : IStream R) (acc : Path R), i.toks.length < fuel →
      ∃ res, load_loop fuel i acc = some res := by
  intro fuel
  induction fuel with
  | zero => intro i acc h; omega
  | succ n ih =>
    intro i acc h
    obtain ⟨toks, fail⟩ := i
    cases fail with
    | true => exact ⟨acc, by simp [load_loop, IStream.extract]⟩
    | false =>
      match toks, h with
      | [], _ => exact ⟨acc, by simp [load_loop, IStream.extract]⟩
      | Token.junk :: _, _ => exact ⟨acc, by simp [load_loop, IStream.extract]⟩
      | [Token.num _], _ => exact ⟨acc, by simp [load_loop, IStream.extract]⟩
      | Token.num _ :: Token.junk :: _, _ => exact ⟨acc, by simp [load_loop, IStream.extract]⟩
      | Token.num x :: Token.num y :: t, h =>
        have hlt : t.length < n := by
          simp only [List.length_cons] at h
          omega
        obtain ⟨res, hres⟩ :=
          ih { toks := t, fail := false } (acc ++ [Position.make_tagged 0 x y]) hlt
        exact ⟨res, by simp [load_loop, IStream.extract, hres]⟩

theorem load_trajectory_total {R : Type} (i : IStream R) : ∃ traj, load_trajectory i = some traj :=
  load_loop_total _ i [] (Nat.lt_succ_self _)

/-- C10: `load_trajectory` reads the longest prefix of complete pairs.  For an
input of `m` numbers followed by the end of input or by a non-numeric item, it
returns `m / 2` points; the `i`-th point has tag 0 and the coordinates
`nums[2i]`, `nums[2i+1]`; a trailing unpaired number is dropped. -/
theorem load_trajectory_reads_pairs {R : Type} (nums : List R) (rest : List (Token R))
    (hrest : rest = [] ∨ ∃ t, rest = Token.junk :: t) :
    ∃ res, load_trajectory { toks := nums.map Token.num ++ rest, fail := false } = some res ∧
      res.length = nums.length / 2 ∧
      ∀ i, i < nums.length / 2 →
        ∃ x y, nums[2 * i]? = some x ∧ nums[2 * i + 1]? = some y ∧
          res[i]? = some { tag := 0, x := x, y := y } := by
  refine ⟨pairs nums, ?_, pairs_length nums, pairs_get nums⟩
  have h := load_loop_pairs rest hrest ((nums.map Token.num ++ rest).length + 1) nums []
    (by simp; omega)
  simpa [load_trajectory] using h

/-- Evaluation of C10 on five numbers followed by text: two points, the fifth
number is dropped. -/
theorem load_trajectory_reads_pairs_witness :
    ∃ res, load_trajectory
        { toks := [1, 2, 3, 4, 5].map Token.num ++ [Token.junk, Token.num (6 : Int)], fail := false }
        = some res ∧
      res.length = [1, 2, 3, 4, (5 : Int)].length / 2 ∧
      ∀ i, i < [1, 2, 3, 4, (5 : Int)].length / 2 →
        ∃ x y, [1, 2, 3, 4, (5 : Int)][2 * i]? = some x ∧ [1, 2, 3, 4, (5 : Int)][2 * i + 1]? = some y ∧
          res[i]? = some { tag := 0, x := x, y := y } :=
  load_trajectory_reads_pairs [1, 2, 3, 4, 5] [Token.junk, Token.num 6] (Or.inr ⟨_, rfl⟩)

/-! ### Pinning the last two points -/

theorem short_index_outside (n : Nat) (h : n < 2) : n ≤ size_t_sub n 2 := by
  have h01 : n = 0 ∨ n = 1 := by omega
  rcases h01 with rfl | rfl <;> decide

theorem pin_last_two_short {R : Type} (traj : Path R) (h : traj.length < 2) :
    pin_last_two traj = Except.error (Abort.out_of_bounds (size_t_sub traj.length 2) traj.length) ∧
      traj.length ≤ size_t_sub traj.length 2 := by
  have hge := short_index_outside traj.length h
  refine ⟨?_, hge⟩
  unfold pin_last_two assign_tag
  rw [if_neg (Nat.not_lt.mpr hge)]
  rfl

/-- C2 (what the code does): when the trajectory file holds fewer than two
points, `main` reports no error; its first statement after loading writes the
tag at index `size() - 2` computed in `size_t`, which lies outside the
trajectory. -/
theorem main_short_trajectory_out_of_bounds {R : Type} (w : World R) (name : String)
    (toks : List (Token R)) (traj : Path R)
    (hname : w.args.index "<trajectory>" = Value.string name)
    (hin : w.input name = some toks)
    (hload : load_trajectory { toks := toks, fail := false } = some traj)
    (hshort : traj.length < 2) :
    main w = Run.undefined (size_t_sub traj.length 2) traj.length ∧
      traj.length ≤ size_t_sub traj.length 2 := by
  obtain ⟨hpin, hle⟩ := pin_last_two_short traj hshort
  refine ⟨?_, hle⟩
  simp [main, main_body, hname, Value.asString, liftExn, open_in_file, hin, main_control_points,
    hload, liftFuel, hpin, bind, Except.bind]

/-- Evaluation of C2 on a trajectory file holding the single point `1 2`. -/
theorem main_short_trajectory_out_of_bounds_witness :
    main (sampleWorld [Token.num 1, Token.num 2] []) = Run.undefined (2 ^ 64 - 1) 1 ∧
      1 ≤ 2 ^ 64 - 1 :=
  main_short_trajectory_out_of_bounds (sampleWorld [Token.num 1, Token.num 2] []) "t.txt"
    [Token.num 1, Token.num 2] [⟨0, 1, 2⟩] (by decide) (by decide) (by decide) (by decide)

/-! ### Option parsing -/

theorem block_eq {α : Type} (v : Value) (conv : String → Except Exn α)
    (set : α → Params) (p : Params) :
    (if v.isString then (do
        let s ← v.asString
        let a ← conv s
        pure (set a))
      else pure p : Except Exn Params) = step v conv set p := by
  cases v <;> simp [Value.isString, Value.asString, step, bind, Except.bind, pure, Except.pure]
  rename_i s
  cases conv s <;> rfl

theorem get_params_try_eq (dflt : Params) (cvt : Double → Int) (args : Args) :
    get_params_try dflt cvt args = (do
      let p1 ← step (args.index "--path_alpha") stod (fun a => { dflt with path_alpha := a }) dflt
      let p2 ← step (args.index "--path_beta") stod (fun a => { p1 with path_beta := a }) p1
      let p3 ← step (args.index "--speed_alpha") stod (fun a => { p2 with speed_alpha := a }) p2
      let p4 ← step (args.index "--speed_beta") stod (fun a => { p3 with speed_beta := a }) p3
      let p5 ← step (args.index "--robot_width") stod (fun a => { p4 with robot_width := a }) p4
      let p6 ← step (args.index "--time_step") stod (fun a => { p5 with time_step := a }) p5
      let p7 ← step (args.index "--max_speed") stod (fun a => { p6 with max_speed := a }) p6
      let p8 ← step (args.index "--max_acceleration") stod (fun a => { p7 with max_acceleration := a }) p7
      let p9 ← step (args.index "--dist_step") stod (fun a => { p8 with dist_step := a }) p8
      let p10 ← step (args.index "--speed_step_mult") stod (fun a => { p9 with speed_step_mult := cvt a }) p9
      let p11 ← step (args.index "--final_acc") stod (fun a => { p10 with final_acc_time := a }) p10
      let p12 ← step (args.index "--smooth_pass") stoi (fun a => { p11 with traj_smooth_pass := a }) p11
      pure p12) := by
  unfold get_params_try
  simp only [block_eq]

theorem step_ok {α β : Type} (v : Value) (conv : String → Except Exn α) (f : α → β)
    (set : Params → β → Params) (get : Params → β) (hset : ∀ p, set p (get p) = p)
    (p p' : Params) (h : step v conv (fun a => set p (f a)) p = Except.ok p') :
    ∃ x, p' = set p x ∧ FieldSpec v (fun s => (conv s).map f) x (get p) := by
  cases v with
  | string s =>
    simp only [step] at h
    cases hc : conv s with
    | ok a =>
      rw [hc] at h
      injection h with h
      exact ⟨f a, h.symm, by simp [FieldSpec, hc, Except.map]⟩
    | error e => rw [hc] at h; cases h
  | _ =>
    simp only [step] at h
    injection h with h
    exact ⟨get p, by rw [hset, h], rfl⟩

theorem step_ok_id {α : Type} (v : Value) (conv : String → Except Exn α)
    (set : Params → α → Params) (get : Params → α) (hset : ∀ p, set p (get p) = p)
    (p p' : Params) (h : step v conv (fun a => set p a) p = Except.ok p') :
    ∃ x, p' = set p x ∧ FieldSpec v conv x (get p) := by
  obtain ⟨x, hx, hs⟩ := step_ok v conv id set get hset p p' h
  refine ⟨x, hx, ?_⟩
  cases v <;> first | exact hs | skip
  simp only [FieldSpec] at hs ⊢
  cases hc : conv _ with
  | ok a => rw [hc] at hs; simpa [Except.map] using hs
  | error e => rw [hc] at hs; simp [Except.map] at hs

theorem step_error {α : Type} (v : Value) (conv : String → Except Exn α)
    (set : α → Params) (p : Params) (e : Exn) (h : step v conv set p = Except.error e) :
    ∃ s, v = Value.string s ∧ conv s = Except.error e := by
  cases v with
  | string s =>
    simp only [step] at h
    cases hc : conv s with
    | ok a => rw [hc] at h; cases h
    | error e' =>
      rw [hc] at h
      injection h with h
      exact ⟨s, rfl, by rw [hc, h]⟩
  | _ => simp [step] at h

theorem bind_eq_ok {ε α β : Type} (x : Except ε α) (f : α → Except ε β) (b : β)
    (h : x >>= f = Except.ok b) : ∃ a, x = Except.ok a ∧ f a = Except.ok b := by
  cases x with
  | ok a => exact ⟨a, rfl, h⟩
  | error e => cases h

theorem bind_eq_error {ε α β : Type} (x : Except ε α) (f : α → Except ε β) (e : ε)
    (h : x >>= f = Except.error e) :
    x = Except.error e ∨ ∃ a, x = Except.ok a ∧ f a = Except.error e := by
  cases x with
  | ok a => exact Or.inr ⟨a, rfl, h⟩
  | error e' =>
    left
    simpa [bind, Except.bind] using h

theorem try_ok_fields (dflt : Params) (cvt : Double → Int) (args : Args) (p : Params)
    (h : get_params_try dflt cvt args = Except.ok p) :
    FieldSpec (args.index "--path_alpha") stod p.path_alpha dflt.path_alpha ∧
      FieldSpec (args.index "--path_beta") stod p.path_beta dflt.path_beta ∧
      FieldSpec (args.index "--speed_alpha") stod p.speed_alpha dflt.speed_alpha ∧
      FieldSpec (args.index "--speed_beta") stod p.speed_beta dflt.speed_beta ∧
      FieldSpec (args.index "--robot_width") stod p.robot_width dflt.robot_width ∧
      FieldSpec (args.index "--time_step") stod p.time_step dflt.time_step ∧
      FieldSpec (args.index "--max_speed") stod p.max_speed dflt.max_speed ∧
      FieldSpec (args.index "--max_acceleration") stod p.max_acceleration dflt.max_acceleration ∧
      FieldSpec (args.index "--dist_step") stod p.dist_step dflt.dist_step ∧
      FieldSpec (args.index "--speed_step_mult") (fun s => (stod s).map cvt) p.speed_step_mult dflt.speed_step_mult ∧
      FieldSpec (args.index "--final_acc") stod p.final_acc_time dflt.final_acc_time ∧
      FieldSpec (args.index "--smooth_pass") stoi p.traj_smooth_pass dflt.traj_smooth_pass := by
  rw [get_params_try_eq] at h
  obtain ⟨p1, h1, h⟩ := bind_eq_ok _ _ _ h
  obtain ⟨x1, rfl, s1⟩ := step_ok_id _ _ (fun p a => { p with path_alpha := a }) Params.path_alpha
    (fun _ => rfl) _ _ h1
  obtain ⟨p2, h2, h⟩ := bind_eq_ok _ _ _ h
  obtain ⟨x2, rfl, s2⟩ := step_ok_id _ _ (fun p a => { p with path_beta := a }) Params.path_beta
    (fun _ => rfl) _ _ h2
  obtain ⟨p3, h3, h⟩ := bind_eq_ok _ _ _ h
  obtain ⟨x3, rfl, s3⟩ := step_ok_id _ _ (fun p a => { p with speed_alpha := a }) Params.speed_alpha
    (fun _ => rfl) _ _ h3
  obtain ⟨p4, h4, h⟩ := bind_eq_ok _ _ _ h
  obtain ⟨x4, rfl, s4⟩ := step_ok_id _ _ (fun p a => { p with speed_beta := a }) Params.speed_beta
    (fun _ => rfl) _ _ h4
  obtain ⟨p5, h5, h⟩ := bind_eq_ok _ _ _ h
  obtain ⟨x5, rfl, s5⟩ := step_ok_id _ _ (fun p a => { p with robot_width := a }) Params.robot_width
    (fun _ => rfl) _ _ h5
  obtain ⟨p6, h6, h⟩ := bind_eq_ok _ _ _ h
  obtain ⟨x6, rfl, s6⟩ := step_ok_id _ _ (fun p a => { p with time_step := a }) Params.time_step
    (fun _ => rfl) _ _ h6
  obtain ⟨p7, h7, h⟩ := bind_eq_ok _ _ _ h
  obtain ⟨x7, rfl, s7⟩ := step_ok_id _ _ (fun p a => { p with max_speed := a }) Params.max_speed
    (fun _ => rfl) _ _ h7
  obtain ⟨p8, h8, h⟩ := bind_eq_ok _ _ _ h
  obtain ⟨x8, rfl, s8⟩ := step_ok_id _ _ (fun p a => { p with max_acceleration := a }) Params.max_acceleration
    (fun _ => rfl) _ _ h8
  obtain ⟨p9, h9, h⟩ := bind_eq_ok _ _ _ h
  obtain ⟨x9, rfl, s9⟩ := step_ok_id _ _ (fun p a => { p with dist_step := a }) Params.dist_step
    (fun _ => rfl) _ _ h9
  obtain ⟨p10, h10, h⟩ := bind_eq_ok _ _ _ h
  obtain ⟨x10, rfl, s10⟩ := step_ok _ _ cvt (fun p a => { p with speed_step_mult := a }) Params.speed_step_mult
    (fun _ => rfl) _ _ h10
  obtain ⟨p11, h11, h⟩ := bind_eq_ok _ _ _ h
  obtain ⟨x11, rfl, s11⟩ := step_ok_id _ _ (fun p a => { p with final_acc_time := a }) Params.final_acc_time
    (fun _ => rfl) _ _ h11
  obtain ⟨p12, h12, h⟩ := bind_eq_ok _ _ _ h
  obtain ⟨x12, rfl, s12⟩ := step_ok_id _ _ (fun p a => { p with traj_smooth_pass := a }) Params.traj_smooth_pass
    (fun _ => rfl) _ _ h12
  injection h with h
  subst h
  exact ⟨s1, s2, s3, s4, s5, s6, s7, s8, s9, s10, s11, s12⟩

theorem option_conversion_stod (key : String) (hk : key ≠ "--smooth_pass") (s : String) (e : Exn)
    (h : stod s = Except.error e) : option_conversion key s = Except.error e := by
  simp [option_conversion, hk, h, Except.map]

theorem option_conversion_stoi (s : String) (e : Exn)
    (h : stoi s = Except.error e) : option_conversion "--smooth_pass" s = Except.error e := by
  simp [option_conversion, h, Except.map]

theorem step_ok_conversion (args : Args) (key : String) (hk : key ≠ "--smooth_pass")
    (set : Double → Params) (p p' : Params)
    (h : step (args.index key) stod set p = Except.ok p') (s : String)
    (hs : args.index key = Value.string s) : option_conversion key s = Except.ok () := by
  rw [hs] at h
  simp only [step] at h
  cases hc : stod s with
  | ok a => simp [option_conversion, hk, hc, Except.map]
  | error e => rw [hc] at h; cases h

theorem try_first_error (dflt : Params) (cvt : Double → Int) (args : Args) (e : Exn)
    (h : get_params_try dflt cvt args = Except.error e) :
    ∃ key ∈ numeric_options, ∃ s, args.index key = Value.string s ∧
      option_conversion key s = Except.error e ∧
      ∀ k ∈ options_before key, ∀ s', args.index k = Value.string s' →
        option_conversion k s' = Except.ok () := by
  rw [get_params_try_eq] at h
  rcases bind_eq_error _ _ _ h with h1 | ⟨p1, q1, g1⟩
  · obtain ⟨s, hv, hc⟩ := step_error _ _ _ _ _ h1
    refine ⟨"--path_alpha", by simp [numeric_options], s, hv, option_conversion_stod "--path_alpha" (by decide) s e hc, ?_⟩
    intro k hk
    have hb : options_before "--path_alpha" = [] := by decide
    rw [hb] at hk
    simp only [List.mem_cons, List.mem_singleton, List.not_mem_nil, or_false] at hk
  rcases bind_eq_error _ _ _ g1 with h1 | ⟨p2, q2, g2⟩
  · obtain ⟨s, hv, hc⟩ := step_error _ _ _ _ _ h1
    refine ⟨"--path_beta", by simp [numeric_options], s, hv, option_conversion_stod "--path_beta" (by decide) s e hc, ?_⟩
    intro k hk
    have hb : options_before "--path_beta" = ["--path_alpha"] := by decide
    rw [hb] at hk
    simp only [List.mem_cons, List.mem_singleton, List.not_mem_nil, or_false] at hk
    rcases hk with rfl
    · exact step_ok_conversion args "--path_alpha" (by decide) _ _ _ q1
  rcases bind_eq_error _ _ _ g2 with h1 | ⟨p3, q3, g3⟩
  · obtain ⟨s, hv, hc⟩ := step_error _ _ _ _ _ h1
    refine ⟨"--speed_alpha", by simp [numeric_options], s, hv, option_conversion_stod "--speed_alpha" (by decide) s e hc, ?_⟩
    intro k hk
    have hb : options_before "--speed_alpha" = ["--path_alpha", "--path_beta"] := by decide
    rw [hb] at hk
    simp only [List.mem_cons, List.mem_singleton, List.not_mem_nil, or_false] at hk
    rcases hk with rfl | rfl
    · exact step_ok_conversion args "--path_alpha" (by decide) _ _ _ q1
    · exact step_ok_conversion args "--path_beta" (by decide) _ _ _ q2
  rcases bind_eq_error _ _ _ g3 with h1 | ⟨p4, q4, g4⟩
  · obtain ⟨s, hv, hc⟩ := step_error _ _ _ _ _ h1
    refine ⟨"--speed_beta", by simp [numeric_options], s, hv, option_conversion_stod "--speed_beta" (by decide) s e hc, ?_⟩
    intro k hk
    have hb : options_before "--speed_beta" = ["--path_alpha", "--path_beta", "--speed_alpha"] := by decide
    rw [hb] at hk
    simp only [List.mem_cons, List.mem_singleton, List.not_mem_nil, or_false] at hk
    rcases hk with rfl | rfl | rfl
    · exact step_ok_conversion args "--path_alpha" (by decide) _ _ _ q1
    · exact step_ok_conversion args "--path_beta" (by decide) _ _ _ q2
    · exact step_ok_conversion args "--speed_alpha" (by decide) _ _ _ q3
  rcases bind_eq_error _ _ _ g4 with h1 | ⟨p5, q5, g5⟩
  · obtain ⟨s, hv, hc⟩ := step_error _ _ _ _ _ h1
    refine ⟨"--robot_width", by simp [numeric_options], s, hv, option_conversion_stod "--robot_width" (by decide) s e hc, ?_⟩
    intro k hk
    have hb : options_before "--robot_width" = ["--path_alpha", "--path_beta", "--speed_alpha", "--speed_beta"] := by decide
    rw [hb] at hk
    simp only [List.mem_cons, List.mem_singleton, List.not_mem_nil, or_false] at hk
    rcases hk with rfl | rfl | rfl | rfl
    · exact step_ok_conversion args "--path_alpha" (by decide) _ _ _ q1
    · exact step_ok_conversion args "--path_beta" (by decide) _ _ _ q2
    · exact step_ok_conversion args "--speed_alpha" (by decide) _ _ _ q3
    · exact step_ok_conversion args "--speed_beta" (by decide) _ _ _ q4
  rcases bind_eq_error _ _ _ g5 with h1 | ⟨p6, q6, g6⟩
  · obtain ⟨s, hv, hc⟩ := step_error _ _ _ _ _ h1
    refine ⟨"--time_step", by simp [numeric_options], s, hv, option_conversion_stod "--time_step" (by decide) s e hc, ?_⟩
    intro k hk
    have hb : options_before "--time_step" = ["--path_alpha", "--path_beta", "--speed_alpha", "--speed_beta", "--robot_width"] := by decide
    rw [hb] at hk
    simp only [List.mem_cons, List.mem_singleton, List.not_mem_nil, or_false] at hk
    rcases hk with rfl | rfl | rfl | rfl | rfl
    · exact step_ok_conversion args "--path_alpha" (by decide) _ _ _ q1
    · exact step_ok_conversion args "--path_beta" (by decide) _ _ _ q2
    · exact step_ok_conversion args "--speed_alpha" (by decide) _ _ _ q3
    · exact step_ok_conversion args "--speed_beta" (by decide) _ _ _ q4
    · exact step_ok_conversion args "--robot_width" (by decide) _ _ _ q5
  rcases bind_eq_error _ _ _ g6 with h1 | ⟨p7, q7, g7⟩
  · obtain ⟨s, hv, hc⟩ := step_error _ _ _ _ _ h1
    refine ⟨"--max_speed", by simp [numeric_options], s, hv, option_conversion_stod "--max_speed" (by decide) s e hc, ?_⟩
    intro k hk
    have hb : options_before "--max_speed" = ["--path_alpha", "--path_beta", "--speed_alpha", "--speed_beta", "--robot_width", "--time_step"] := by decide
    rw [hb] at hk
    simp only [List.mem_cons, List.mem_singleton, List.not_mem_nil, or_false] at hk
    rcases hk with rfl | rfl | rfl | rfl | rfl | rfl
    · exact step_ok_conversion args "--path_alpha" (by decide) _ _ _ q1
    · exact step_ok_conversion args "--path_beta" (by decide) _ _ _ q2
    · exact step_ok_conversion args "--speed_alpha" (by decide) _ _ _ q3
    · exact step_ok_conversion args "--speed_beta" (by decide) _ _ _ q4
    · exact step_ok_conversion args "--robot_width" (by decide) _ _ _ q5
    · exact step_ok_conversion args "--time_step" (by decide) _ _ _ q6
  rcases bind_eq_error _ _ _ g7 with h1 | ⟨p8, q8, g8⟩
  · obtain ⟨s, hv, hc⟩ := step_error _ _ _ _ _ h1
    refine ⟨"--max_acceleration", by simp [numeric_options], s, hv, option_conversion_stod "--max_acceleration" (by decide) s e hc, ?_⟩
    intro k hk
    have hb : options_before "--max_acceleration" = ["--path_alpha", "--path_beta", "--speed_alpha", "--speed_beta", "--robot_width", "--time_step", "--max_speed"] := by decide
    rw [hb] at hk
    simp only [List.mem_cons, List.mem_singleton, List.not_mem_nil, or_false] at hk
    rcases hk with rfl | rfl | rfl | rfl | rfl | rfl | rfl
    · exact step_ok_conversion args "--path_alpha" (by decide) _ _ _ q1
    · exact step_ok_conversion args "--path_beta" (by decide) _ _ _ q2
    · exact step_ok_conversion args "--speed_alpha" (by decide) _ _ _ q3
    · exact step_ok_conversion args "--speed_beta" (by decide) _ _ _ q4
    · exact step_ok_conversion args "--robot_width" (by decide) _ _ _ q5
    · exact step_ok_conversion args "--time_step" (by decide) _ _ _ q6
    · exact step_ok_conversion args "--max_speed" (by decide) _ _ _ q7
  rcases bind_eq_error _ _ _ g8 with h1 | ⟨p9, q9, g9⟩
  · obtain ⟨s, hv, hc⟩ := step_error _ _ _ _ _ h1
    refine ⟨"--dist_step", by simp [numeric_options], s, hv, option_conversion_stod "--dist_step" (by decide) s e hc, ?_⟩
    intro k hk
    have hb : options_before "--dist_step" = ["--path_alpha", "--path_beta", "--speed_alpha", "--speed_beta", "--robot_width", "--time_step", "--max_speed", "--max_acceleration"] := by decide
    rw [hb] at hk
    simp only [List.mem_cons, List.mem_singleton, List.not_mem_nil, or_false] at hk
    rcases hk with rfl | rfl | rfl | rfl | rfl | rfl | rfl | rfl
    · exact step_ok_conversion args "--path_alpha" (by decide) _ _ _ q1
    · exact step_ok_conversion args "--path_beta" (by decide) _ _ _ q2
    · exact step_ok_conversion args "--speed_alpha" (by decide) _ _ _ q3
    · exact step_ok_conversion args "--speed_beta" (by decide) _ _ _ q4
    · exact step_ok_conversion args "--robot_width" (by decide) _ _ _ q5
    · exact step_ok_conversion args "--time_step" (by decide) _ _ _ q6
    · exact step_ok_conversion args "--max_speed" (by decide) _ _ _ q7
    · exact step_ok_conversion args "--max_acceleration" (by decide) _ _ _ q8
  rcases bind_eq_error _ _ _ g9 with h1 | ⟨p10, q10, g10⟩
  · obtain ⟨s, hv, hc⟩ := step_error _ _ _ _ _ h1
    refine ⟨"--speed_step_mult", by simp [numeric_options], s, hv, option_conversion_stod "--speed_step_mult" (by decide) s e hc, ?_⟩
    intro k hk
    have hb : options_before "--speed_step_mult" = ["--path_alpha", "--path_beta", "--speed_alpha", "--speed_beta", "--robot_width", "--time_step", "--max_speed", "--max_acceleration", "--dist_step"] := by decide
    rw [hb] at hk
    simp only [List.mem_cons, List.mem_singleton, List.not_mem_nil, or_false] at hk
    rcases hk with rfl | rfl | rfl | rfl | rfl | rfl | rfl | rfl | rfl
    · exact step_ok_conversion args "--path_alpha" (by decide) _ _ _ q1
    · exact step_ok_conversion args "--path_beta" (by decide) _ _ _ q2
    · exact step_ok_conversion args "--speed_alpha" (by decide) _ _ _ q3
    · exact step_ok_conversion args "--speed_beta" (by decide) _ _ _ q4
    · exact step_ok_conversion args "--robot_width" (by decide) _ _ _ q5
    · exact step_ok_conversion args "--time_step" (by decide) _ _ _ q6
    · exact step_ok_conversion args "--max_speed" (by decide) _ _ _ q7
    · exact step_ok_conversion args "--max_acceleration" (by decide) _ _ _ q8
    · exact step_ok_conversion args "--dist_step" (by decide) _ _ _ q9
  rcases bind_eq_error _ _ _ g10 with h1 | ⟨p11, q11, g11⟩
  · obtain ⟨s, hv, hc⟩ := step_error _ _ _ _ _ h1
    refine ⟨"--final_acc", by simp [numeric_options], s, hv, option_conversion_stod "--final_acc" (by decide) s e hc, ?_⟩
    intro k hk
    have hb : options_before "--final_acc" = ["--path_alpha", "--path_beta", "--speed_alpha", "--speed_beta", "--robot_width", "--time_step", "--max_speed", "--max_acceleration", "--dist_step", "--speed_step_mult"] := by decide
    rw [hb] at hk
    simp only [List.mem_cons, List.mem_singleton, List.not_mem_nil, or_false] at hk
    rcases hk with rfl | rfl | rfl | rfl | rfl | rfl | rfl | rfl | rfl | rfl
    · exact step_ok_conversion args "--path_alpha" (by decide) _ _ _ q1
    · exact step_ok_conversion args "--path_beta" (by decide) _ _ _ q2
    · exact step_ok_conversion args "--speed_alpha" (by decide) _ _ _ q3
    · exact step_ok_conversion args "--speed_beta" (by decide) _ _ _ q4
    · exact step_ok_conversion args "--robot_width" (by decide) _ _ _ q5
    · exact step_ok_conversion args "--time_step" (by decide) _ _ _ q6
    · exact step_ok_conversion args "--max_speed" (by decide) _ _ _ q7
    · exact step_ok_conversion args "--max_acceleration" (by decide) _ _ _ q8
    · exact step_ok_conversion args "--dist_step" (by decide) _ _ _ q9
    · exact step_ok_conversion args "--speed_step_mult" (by decide) _ _ _ q10
  rcases bind_eq_error _ _ _ g11 with h1 | ⟨p12, q12, g12⟩
  · obtain ⟨s, hv, hc⟩ := step_error _ _ _ _ _ h1
    refine ⟨"--smooth_pass", by simp [numeric_options], s, hv, option_conversion_stoi s e hc, ?_⟩
    intro k hk
    have hb : options_before "--smooth_pass" = ["--path_alpha", "--path_beta", "--speed_alpha", "--speed_beta", "--robot_width", "--time_step", "--max_speed", "--max_acceleration", "--dist_step", "--speed_step_mult", "--final_acc"] := by decide
    rw [hb] at hk
    simp only [List.mem_cons, List.mem_singleton, List.not_mem_nil, or_false] at hk
    rcases hk with rfl | rfl | rfl | rfl | rfl | rfl | rfl | rfl | rfl | rfl | rfl
    · exact step_ok_conversion args "--path_alpha" (by decide) _ _ _ q1
    · exact step_ok_conversion args "--path_beta" (by decide) _ _ _ q2
    · exact step_ok_conversion args "--speed_alpha" (by decide) _ _ _ q3
    · exact step_ok_conversion args "--speed_beta" (by decide) _ _ _ q4
    · exact step_ok_conversion args "--robot_width" (by decide) _ _ _ q5
    · exact step_ok_conversion args "--time_step" (by decide) _ _ _ q6
    · exact step_ok_conversion args "--max_speed" (by decide) _ _ _ q7
    · exact step_ok_conversion args "--max_acceleration" (by decide) _ _ _ q8
    · exact step_ok_conversion args "--dist_step" (by decide) _ _ _ q9
    · exact step_ok_conversion args "--speed_step_mult" (by decide) _ _ _ q10
    · exact step_ok_conversion args "--final_acc" (by decide) _ _ _ q11
  cases g12

theorem before_trichotomy (l : List String) (a b : String) (ha : a ∈ l) (hb : b ∈ l) :
    a = b ∨ a ∈ l.takeWhile (fun k => decide (k ≠ b)) ∨
      b ∈ l.takeWhile (fun k => decide (k ≠ a)) := by
  induction l with
  | nil => cases ha
  | cons x t ih =>
    by_cases hab : a = b
    · exact Or.inl hab
    · right
      by_cases hxa : x = a
      · left
        subst hxa
        simp [List.takeWhile, hab]
      · by_cases hxb : x = b
        · right
          subst hxb
          simp [List.takeWhile, Ne.symm hab]
        · have ha' : a ∈ t := by
            rcases List.mem_cons.mp ha with h | h
            · exact absurd h.symm hxa
            · exact h
          have hb' : b ∈ t := by
            rcases List.mem_cons.mp hb with h | h
            · exact absurd h.symm hxb
            · exact h
          rcases ih ha' hb' with h | h | h
          · exact absurd h hab
          · left
            have e : (x :: t).takeWhile (fun k => decide (k ≠ b))
                = x :: t.takeWhile (fun k => decide (k ≠ b)) := by
              simp [List.takeWhile, hxb]
            rw [e]
            exact List.mem_cons_of_mem _ h
          · right
            have e : (x :: t).takeWhile (fun k => decide (k ≠ a))
                = x :: t.takeWhile (fun k => decide (k ≠ a)) := by
              simp [List.takeWhile, hxa]
            rw [e]
            exact List.mem_cons_of_mem _ h

theorem in_range_before_spec (args : Args) (key : String) (h : in_range_before args key = true)
    (k : String) (hk : k ∈ options_before key) (s : String) (hs : args.index k = Value.string s)
    (what : String) : option_conversion k s ≠ Except.error (Exn.out_of_range what) := by
  intro hc
  have := List.all_eq_true.mp h k hk
  simp [hs, hc] at this

theorem stod_error (s : String) (e : Exn) (h : stod s = Except.error e) :
    e = Exn.invalid_argument "stod" ∨ e = Exn.out_of_range "stod" := by
  unfold stod at h
  split at h
  · injection h with h; exact Or.inl h.symm
  · split at h
    · injection h with h; exact Or.inr h.symm
    · cases h

theorem stoi_error (s : String) (e : Exn) (h : stoi s = Except.error e) :
    e = Exn.invalid_argument "stoi" ∨ e = Exn.out_of_range "stoi" := by
  simp only [stoi] at h
  split_ifs at h <;> (cases h; simp)

theorem get_params_ok (dflt : Params) (cvt : Double → Int) (args : Args) (p : Params)
    (h : get_params dflt cvt args = Except.ok p) : get_params_try dflt cvt args = Except.ok p := by
  unfold get_params at h
  cases hc : get_params_try dflt cvt args with
  | ok q => rw [hc] at h; simpa using h
  | error e => rw [hc] at h; cases e <;> simp at h

theorem try_ok_conversions (dflt : Params) (cvt : Double → Int) (args : Args) (p : Params)
    (h : get_params_try dflt cvt args = Except.ok p) (key : String) (hkey : key ∈ numeric_options)
    (s : String) (hs : args.index key = Value.string s) :
    option_conversion key s = Except.ok () := by
  obtain ⟨s1, s2, s3, s4, s5, s6, s7, s8, s9, s10, s11, s12⟩ := try_ok_fields dflt cvt args p h
  simp only [numeric_options, List.mem_cons, List.mem_singleton, List.not_mem_nil, or_false] at hkey
  rcases hkey with rfl | rfl | rfl | rfl | rfl | rfl | rfl | rfl | rfl | rfl | rfl | rfl
  · simp only [FieldSpec, hs] at s1
    simp [option_conversion, s1, Except.map]
  · simp only [FieldSpec, hs] at s2
    simp [option_conversion, s2, Except.map]
  · simp only [FieldSpec, hs] at s3
    simp [option_conversion, s3, Except.map]
  · simp only [FieldSpec, hs] at s4
    simp [option_conversion, s4, Except.map]
  · simp only [FieldSpec, hs] at s5
    simp [option_conversion, s5, Except.map]
  · simp only [FieldSpec, hs] at s6
    simp [option_conversion, s6, Except.map]
  · simp only [FieldSpec, hs] at s7
    simp [option_conversion, s7, Except.map]
  · simp only [FieldSpec, hs] at s8
    simp [option_conversion, s8, Except.map]
  · simp only [FieldSpec, hs] at s9
    simp [option_conversion, s9, Except.map]
  · simp only [FieldSpec, hs] at s10
    cases hc : stod s with
    | ok a => simp [option_conversion, hc, Except.map]
    | error e => rw [hc] at s10; simp [Except.map] at s10
  · simp only [FieldSpec, hs] at s11
    simp [option_conversion, s11, Except.map]
  · simp only [FieldSpec, hs] at s12
    simp [option_conversion, s12, Except.map]

/-! ### Which strings hold a number -/

theorem read_digits_count_ge (base : Nat) (digit : Char → Option Nat) :
    ∀ (cs : List Char) (acc cnt : Nat), cnt ≤ (read_digits base digit cs acc cnt).2.1 := by
  intro cs
  induction cs with
  | nil => intro acc cnt; simp [read_digits]
  | cons c t ih =>
    intro acc cnt
    cases hd : digit c with
    | none => simp [read_digits, hd]
    | some d =>
      simp only [read_digits, hd]
      exact Nat.le_trans (Nat.le_succ cnt) (ih _ _)

theorem starts_integer_iff (cs : List Char) :
    (read_digits 10 decDigit (read_sign (skip_space cs)).2 0 0).2.1 = 0 ↔
      starts_integer cs = false := by
  unfold starts_integer
  cases (read_sign (skip_space cs)).2 with
  | nil => simp [read_digits]
  | cons c t =>
    cases hd : decDigit c with
    | none => simp [read_digits, hd]
    | some d =>
      have := read_digits_count_ge 10 decDigit t (0 * 10 + d) (0 + 1)
      simp only [read_digits, hd, Option.isSome_some]
      constructor
      · intro h; omega
      · intro h; cases h

theorem frac_count_ge (digit : Char → Option Nat) (base : Nat) (ip : Nat × Nat × List Char) :
    ip.2.1 ≤ (match ip.2.2 with
      | '.' :: rest => read_digits base digit rest ip.1 ip.2.1
      | _ => ip).2.1 := by
  split
  · exact read_digits_count_ge _ _ _ _ _
  · exact Nat.le_refl _

theorem mantissa_none_iff (neg : Bool) (base : Nat) (digit : Char → Option Nat)
    (ebase bits : Nat) (lower upper : Char) (r : List Char) :
    read_mantissa neg base digit ebase bits lower upper r = none ↔
      (match (read_digits base digit r 0 0).2.2 with
        | '.' :: rest => read_digits base digit rest (read_digits base digit r 0 0).1
            (read_digits base digit r 0 0).2.1
        | _ => read_digits base digit r 0 0).2.1 = 0 := by
  unfold read_mantissa
  simp only
  split <;> simp_all

theorem read_mantissa_dec_none (neg : Bool) (r : List Char) :
    read_mantissa neg 10 decDigit 10 1 'e' 'E' r = none ↔ starts_decimal r = false := by
  have hpt : decDigit '.' = none := by decide
  rw [mantissa_none_iff]
  match r with
  | [] => simp [read_digits, starts_decimal]
  | c :: t =>
    cases hd : decDigit c with
    | some d =>
      have h1 := read_digits_count_ge 10 decDigit t (0 * 10 + d) (0 + 1)
      have h2 := frac_count_ge decDigit 10 (read_digits 10 decDigit t (0 * 10 + d) (0 + 1))
      have hs : starts_decimal (c :: t) = true := by
        cases t <;> simp [starts_decimal, hd]
      rw [hs]
      simp only [read_digits, hd]
      constructor
      · intro h; omega
      · intro h; cases h
    | none =>
      simp only [read_digits, hd]
      by_cases hc : c = '.'
      · subst hc
        match t with
        | [] => simp [read_digits, starts_decimal, hpt]
        | e :: u =>
          cases he : decDigit e with
          | none => simp [read_digits, starts_decimal, hpt, he]
          | some v =>
            have h1 := read_digits_count_ge 10 decDigit u (0 * 10 + v) (0 + 1)
            have hs : starts_decimal ('.' :: e :: u) = true := by
              simp [starts_decimal, he]
            rw [hs]
            simp only [read_digits, he]
            constructor
            · intro h; omega
            · intro h; cases h
      · have hs : starts_decimal (c :: t) = false := by
          cases t <;> simp [starts_decimal, hd, hc]
        rw [hs]
        split
        · rename_i heq
          injection heq with h1 h2
          exact absurd h1 hc
        · simp

theorem strtod_subject_none_iff (r : List Char) :
    strtod_subject r = none ↔
      (starts_decimal (read_sign r).2 = false ∧
        starts_with_ci ['i', 'n', 'f'] (read_sign r).2 = false ∧
        starts_with_ci ['n', 'a', 'n'] (read_sign r).2 = false) := by
  have hdec := read_mantissa_dec_none (read_sign r).1 (read_sign r).2
  unfold strtod_subject
  simp only
  cases hsd : starts_decimal (read_sign r).2 with
  | false =>
    have hnone := hdec.mpr hsd
    have hhex : (match (read_sign r).2 with
        | '0' :: x :: rest =>
          if x = 'x' ∨ x = 'X' then
            read_mantissa (read_sign r).1 16 hexDigit 2 4 'p' 'P' rest
          else none
        | _ => none) = none := by
      split
      · rename_i x rest heq
        rw [heq] at hsd
        have : decDigit '0' = some 0 := by decide
        simp [starts_decimal, this] at hsd
      · rfl
    rw [hhex, hnone]
    cases starts_with_ci ['i', 'n', 'f'] (read_sign r).2 <;>
      cases starts_with_ci ['n', 'a', 'n'] (read_sign r).2 <;> simp
  | true =>
    have hsome : read_mantissa (read_sign r).1 10 decDigit 10 1 'e' 'E' (read_sign r).2 ≠ none := by
      intro h
      have := hdec.mp h
      rw [hsd] at this
      cases this
    cases hm : read_mantissa (read_sign r).1 10 decDigit 10 1 'e' 'E' (read_sign r).2 with
    | none => exact absurd hm hsome
    | some d =>
      constructor
      · intro h
        split at h
        · cases h
        · cases h
      · intro h
        cases h.1

theorem stod_invalid_iff (s : String) :
    stod s = Except.error (Exn.invalid_argument "stod") ↔ starts_number s.data = false := by
  have h := strtod_subject_none_iff (skip_space s.data)
  unfold stod starts_number
  cases hsub : strtod_subject (skip_space s.data) with
  | none =>
    have := h.mp hsub
    simp [this.1, this.2.1, this.2.2]
  | some d =>
    have hne : ¬ (starts_decimal (read_sign (skip_space s.data)).2 = false ∧
        starts_with_ci ['i', 'n', 'f'] (read_sign (skip_space s.data)).2 = false ∧
        starts_with_ci ['n', 'a', 'n'] (read_sign (skip_space s.data)).2 = false) := by
      intro hc
      have := h.mpr hc
      rw [hsub] at this
      cases this
    constructor
    · intro hbad
      simp only at hbad
      split at hbad <;> simp at hbad
    · intro hc
      exfalso
      apply hne
      simpa [Bool.or_eq_false_iff, and_assoc] using hc

theorem stoi_invalid_iff (s : String) :
    stoi s = Except.error (Exn.invalid_argument "stoi") ↔ starts_integer s.data = false := by
  rw [← starts_integer_iff]
  simp only [stoi]
  constructor
  · intro h
    split_ifs at h with h0 h1
    · exact h0
    · simp at h
    · cases h
  · intro h
    simp [h]

theorem option_conversion_invalid_iff (key s : String) :
    option_conversion key s = Except.error (Exn.invalid_argument (conversion_name key)) ↔
      has_number key s = false := by
  unfold option_conversion conversion_name has_number
  by_cases hk : key = "--smooth_pass"
  · simp only [hk, if_true]
    rw [← stoi_invalid_iff]
    cases stoi s <;> simp [Except.map]
  · simp only [hk, if_false]
    rw [← stod_invalid_iff]
    cases stod s <;> simp [Except.map]

theorem option_conversion_error_name (key s : String) (e : Exn)
    (h : option_conversion key s = Except.error e) :
    e = Exn.invalid_argument (conversion_name key) ∨ e = Exn.out_of_range (conversion_name key) := by
  unfold option_conversion at h
  unfold conversion_name
  by_cases hk : key = "--smooth_pass"
  · simp only [hk, if_true] at h ⊢
    cases hc : stoi s with
    | ok a => rw [hc] at h; cases h
    | error e' =>
      rw [hc] at h
      simp only [Except.map] at h
      injection h with h
      subst h
      exact stoi_error s e' hc
  · simp only [hk, if_false] at h ⊢
    cases hc : stod s with
    | ok a => rw [hc] at h; cases h
    | error e' =>
      rw [hc] at h
      simp only [Except.map] at h
      injection h with h
      subst h
      exact stod_error s e' hc

/-! ### The claims about `get_params` -/

/-- C9: `get_params` changes only the fields whose options are given.  In the
parameters it returns, every field whose option is not a string equals the
field of the default-constructed `Params`, and every field whose option is a
string is the conversion of that string (`--speed_step_mult` through the
conversion to the field's type); each field depends on its own option only. -/
theorem get_params_sets_only_given_options (dflt : Params) (cvt : Double → Int) (args : Args)
    (p : Params) (h : get_params dflt cvt args = Except.ok p) :
    FieldSpec (args.index "--path_alpha") stod p.path_alpha dflt.path_alpha ∧
      FieldSpec (args.index "--path_beta") stod p.path_beta dflt.path_beta ∧
      FieldSpec (args.index "--speed_alpha") stod p.speed_alpha dflt.speed_alpha ∧
      FieldSpec (args.index "--speed_beta") stod p.speed_beta dflt.speed_beta ∧
      FieldSpec (args.index "--robot_width") stod p.robot_width dflt.robot_width ∧
      FieldSpec (args.index "--time_step") stod p.time_step dflt.time_step ∧
      FieldSpec (args.index "--max_speed") stod p.max_speed dflt.max_speed ∧
      FieldSpec (args.index "--max_acceleration") stod p.max_acceleration dflt.max_acceleration ∧
      FieldSpec (args.index "--dist_step") stod p.dist_step dflt.dist_step ∧
      FieldSpec (args.index "--speed_step_mult") (fun s => (stod s).map cvt) p.speed_step_mult dflt.speed_step_mult ∧
      FieldSpec (args.index "--final_acc") stod p.final_acc_time dflt.final_acc_time ∧
      FieldSpec (args.index "--smooth_pass") stoi p.traj_smooth_pass dflt.traj_smooth_pass :=
  try_ok_fields dflt cvt args p (get_params_ok dflt cvt args p h)

/-- Evaluation of C9 on a command line with three options. -/
theorem get_params_sets_only_given_options_witness :
    get_params zeroParams truncate sampleOptions = Except.ok sampleParams ∧
      FieldSpec (sampleOptions.index "--path_alpha") stod sampleParams.path_alpha zeroParams.path_alpha ∧
      FieldSpec (sampleOptions.index "--path_beta") stod sampleParams.path_beta zeroParams.path_beta ∧
      FieldSpec (sampleOptions.index "--speed_alpha") stod sampleParams.speed_alpha zeroParams.speed_alpha ∧
      FieldSpec (sampleOptions.index "--speed_beta") stod sampleParams.speed_beta zeroParams.speed_beta ∧
      FieldSpec (sampleOptions.index "--robot_width") stod sampleParams.robot_width zeroParams.robot_width ∧
      FieldSpec (sampleOptions.index "--time_step") stod sampleParams.time_step zeroParams.time_step ∧
      FieldSpec (sampleOptions.index "--max_speed") stod sampleParams.max_speed zeroParams.max_speed ∧
      FieldSpec (sampleOptions.index "--max_acceleration") stod sampleParams.max_acceleration zeroParams.max_acceleration ∧
      FieldSpec (sampleOptions.index "--dist_step") stod sampleParams.dist_step zeroParams.dist_step ∧
      FieldSpec (sampleOptions.index "--speed_step_mult") (fun s => (stod s).map truncate) sampleParams.speed_step_mult zeroParams.speed_step_mult ∧
      FieldSpec (sampleOptions.index "--final_acc") stod sampleParams.final_acc_time zeroParams.final_acc_time ∧
      FieldSpec (sampleOptions.index "--smooth_pass") stoi sampleParams.traj_smooth_pass zeroParams.traj_smooth_pass :=
  ⟨by decide,
    get_params_sets_only_given_options zeroParams truncate sampleOptions sampleParams (by decide)⟩

/-- C3 fails as stated: an option value with a number followed by trailing text
is not rejected; `get_params` returns parameters whose field is set from the
numeric prefix. -/
theorem get_params_accepts_trailing_text :
    get_params zeroParams truncate [("--path_alpha", Value.string "1.5abc")]
      = Except.ok { zeroParams with path_alpha := Double.finite false 15 10 } := by
  decide

/-- C3 as amended: when the conversion of a numeric option finds no number
in the option's string, that is, after optional white space and an optional
sign the string begins neither with a digit, nor with a point followed by a
digit, nor in any letter case with `inf` or `nan` (for `--smooth_pass`: it
does not begin with a digit), `get_params` returns no `Params`.  If moreover
no option read before it has a value out of range, `get_params` fails with the
`runtime_error` whose message is "Invalid values for parameters! " followed
by `stod` or `stoi`, and `main`, once the trajectory is loaded and pinned,
prints that message on standard error and returns 1. -/
theorem get_params_rejects_text_without_number {R : Type} (w : World R) (key s : String)
    (hkey : key ∈ numeric_options) (hs : w.args.index key = Value.string s)
    (hbad : has_number key s = false) :
    (∀ p, get_params w.dflt w.cvt w.args ≠ Except.ok p) ∧
      (in_range_before w.args key = true →
        ∃ fn, (fn = "stod" ∨ fn = "stoi") ∧
          get_params w.dflt w.cvt w.args
            = Except.error (Exn.runtime_error ("Invalid values for parameters! " ++ fn)) ∧
          ∀ (name : String) (toks : List (Token R)) (cp : Path R),
            w.args.index "<trajectory>" = Value.string name →
            w.input name = some toks →
            main_control_points { toks := toks, fail := false } = Except.ok cp →
            main w = Run.failure ("Invalid values for parameters! " ++ fn ++ "\n")) := by
  have hconv := (option_conversion_invalid_iff key s).mpr hbad
  have hno : ∀ p, get_params w.dflt w.cvt w.args ≠ Except.ok p := by
    intro p hp
    have := try_ok_conversions _ _ _ p (get_params_ok _ _ _ p hp) key hkey s hs
    rw [hconv] at this
    cases this
  refine ⟨hno, ?_⟩
  intro hr
  cases htry : get_params_try w.dflt w.cvt w.args with
  | ok p =>
    exact absurd (show get_params w.dflt w.cvt w.args = Except.ok p by simp [get_params, htry])
      (hno p)
  | error e =>
    obtain ⟨k, hk, s', hs', hc, hbefore⟩ := try_first_error _ _ _ e htry
    have he : e = Exn.invalid_argument (conversion_name k) := by
      rcases before_trichotomy numeric_options k key hk hkey with h | h | h
      · subst h
        have hss : s' = s := by
          rw [hs] at hs'
          injection hs' with hs'
          exact hs'.symm
        subst hss
        rw [hconv] at hc
        injection hc with hc
        exact hc.symm
      · rcases option_conversion_error_name k s' e hc with h' | h'
        · exact h'
        · exact absurd (h' ▸ hc) (in_range_before_spec _ key hr k h s' hs' _)
      · have := hbefore key h s hs
        rw [hconv] at this
        cases this
    subst he
    have hfn : conversion_name k = "stod" ∨ conversion_name k = "stoi" := by
      unfold conversion_name
      split
      · exact Or.inr rfl
      · exact Or.inl rfl
    have hget : get_params w.dflt w.cvt w.args
        = Except.error (Exn.runtime_error ("Invalid values for parameters! " ++ conversion_name k)) := by
      simp [get_params, htry]
    refine ⟨conversion_name k, hfn, hget, ?_⟩
    intro name toks cp hname hin hcp
    simp [main, main_body, hname, Value.asString, liftExn, open_in_file, hin, hcp, hget, bind,
      Except.bind]

/-- Evaluation of the amended C3: `--max_speed=fast`, with a later option out
of range, on a three-point trajectory. -/
theorem get_params_rejects_text_without_number_witness :
    (∀ p, get_params zeroParams truncate (sampleWorld threePoints textOptions).args
        ≠ Except.ok p) ∧
      (∃ fn, (fn = "stod" ∨ fn = "stoi") ∧
        get_params zeroParams truncate (sampleWorld threePoints textOptions).args
          = Except.error (Exn.runtime_error ("Invalid values for parameters! " ++ fn)) ∧
        ∀ (name : String) (toks : List (Token Int)) (cp : Path Int),
          (sampleWorld threePoints textOptions).args.index "<trajectory>" = Value.string name →
          (sampleWorld threePoints textOptions).input name = some toks →
          main_control_points { toks := toks, fail := false } = Except.ok cp →
          main (sampleWorld threePoints textOptions) = Run.failure ("Invalid values for parameters! " ++ fn ++ "\n")) ∧
      main (sampleWorld threePoints textOptions)
        = Run.failure "Invalid values for parameters! stod\n" :=
  have h := get_params_rejects_text_without_number (sampleWorld threePoints textOptions)
    "--max_speed" "fast" (by decide) (by decide) (by decide)
  ⟨h.1, h.2 (by decide), by decide⟩

/-- Words that begin with `inf` or `nan` hold a number for `std::stod`: such
option values are converted, not rejected. -/
theorem get_params_accepts_inf_nan_words :
    get_params zeroParams truncate [("--time_step", Value.string "information")]
        = Except.ok { zeroParams with time_step := Double.inf false } ∧
      get_params zeroParams truncate [("--dist_step", Value.string "nanometre")]
        = Except.ok { zeroParams with dist_step := Double.nan false } := by
  decide

/-- C4 fails as stated: rejections caused by different options and different
strings carry the same message, which contains neither the name of the option
nor the rejected string. -/
theorem get_params_rejections_indistinguishable :
    get_params zeroParams truncate [("--path_alpha", Value.string "abc")]
        = Except.error (Exn.runtime_error stodMessage) ∧
      get_params zeroParams truncate [("--speed_beta", Value.string "fast")]
        = Except.error (Exn.runtime_error stodMessage) ∧
      ¬ ("abc".data <:+: stodMessage.data) ∧ ¬ ("--path_alpha".data <:+: stodMessage.data) ∧
      ¬ ("fast".data <:+: stodMessage.data) ∧ ¬ ("--speed_beta".data <:+: stodMessage.data) := by
  decide

/-- C4 as amended: whenever `get_params` rejects a value with its
`runtime_error`, the rejected value is the string of the first option, in
reading order, whose conversion fails; that string holds no number; and the
message is "Invalid values for parameters! " followed by the name of that
option's conversion function, `stoi` for `--smooth_pass` and `stod` for every
other option. -/
theorem get_params_message_names_conversion (dflt : Params) (cvt : Double → Int) (args : Args)
    (msg : String) (h : get_params dflt cvt args = Except.error (Exn.runtime_error msg)) :
    ∃ key ∈ numeric_options, ∃ s, args.index key = Value.string s ∧
      has_number key s = false ∧
      (∀ k ∈ options_before key, ∀ s', args.index k = Value.string s' →
        option_conversion k s' = Except.ok ()) ∧
      msg = "Invalid values for parameters! " ++ conversion_name key := by
  unfold get_params at h
  cases htry : get_params_try dflt cvt args with
  | ok p => rw [htry] at h; cases h
  | error e =>
    rw [htry] at h
    obtain ⟨k, hk, s, hs, hc, hbefore⟩ := try_first_error _ _ _ e htry
    rcases option_conversion_error_name k s e hc with rfl | rfl
    · refine ⟨k, hk, s, hs, (option_conversion_invalid_iff k s).mp hc, hbefore, ?_⟩
      simpa using h.symm
    · simp at h

/-- Evaluation of the amended C4 on `--max_speed=2.5 --smooth_pass=many`. -/
theorem get_params_message_names_conversion_witness :
    get_params zeroParams truncate
        [("--max_speed", Value.string "2.5"), ("--smooth_pass", Value.string "many")]
        = Except.error (Exn.runtime_error "Invalid values for parameters! stoi") ∧
      ∃ key ∈ numeric_options, ∃ s,
        Args.index [("--max_speed", Value.string "2.5"), ("--smooth_pass", Value.string "many")]
          key = Value.string s ∧
        has_number key s = false ∧
        (∀ k ∈ options_before key, ∀ s',
          Args.index [("--max_speed", Value.string "2.5"), ("--smooth_pass", Value.string "many")]
            k = Value.string s' →
          option_conversion k s' = Except.ok ()) ∧
        "Invalid values for parameters! stoi" = "Invalid values for parameters! " ++ conversion_name key :=
  ⟨by decide,
    get_params_message_names_conversion zeroParams truncate
      [("--max_speed", Value.string "2.5"), ("--smooth_pass", Value.string "many")]
      "Invalid values for parameters! stoi" (by decide)⟩

/-- An option value out of range: `std::stod` throws `out_of_range`, which
neither handler of `get_params` nor the handler of `main` catches. -/
theorem main_out_of_range_not_caught :
    get_params zeroParams truncate [("--max_speed", Value.string "1e999")]
        = Except.error (Exn.out_of_range "stod") ∧
      main (sampleWorld threePoints [("--max_speed", Value.string "1e999")])
        = Run.terminate (Exn.out_of_range "stod") := by
  decide

/-! ### Output -/

theorem gnuplot_output_append {R : Type} (fmt : R → List Char) :
    ∀ (p : Path R) (o : List Char), gnuplot_output fmt o p = o ++ gnuplot_output fmt [] p := by
  intro p
  induction p with
  | nil => intro o; simp [gnuplot_output]
  | cons q t ih =>
    intro o
    have h1 : gnuplot_output fmt o (q :: t)
        = gnuplot_output fmt (o ++ fmt q.x ++ ['\t'] ++ fmt q.y ++ ['\n']) t := rfl
    have h2 : gnuplot_output fmt [] (q :: t)
        = gnuplot_output fmt ([] ++ fmt q.x ++ ['\t'] ++ fmt q.y ++ ['\n']) t := rfl
    rw [h1, h2, ih (o ++ fmt q.x ++ ['\t'] ++ fmt q.y ++ ['\n']),
      ih ([] ++ fmt q.x ++ ['\t'] ++ fmt q.y ++ ['\n'])]
    simp [List.append_assoc]

theorem lines_from_line (rest : List Char) :
    ∀ (l cur : List Char), '\n' ∉ l →
      lines_from (l ++ '\n' :: rest) cur = (cur ++ l) :: lines_from rest [] := by
  intro l
  induction l with
  | nil => intro cur _; simp [lines_from]
  | cons c t ih =>
    intro cur h
    have hc : c ≠ '\n' := fun e => h (by simp [e])
    have ht : '\n' ∉ t := fun e => h (List.mem_cons_of_mem _ e)
    simp [lines_from, hc, ih (cur ++ [c]) ht]

theorem point_line_no_newline {R : Type} (fmt : R → List Char) (q : Position R)
    (hq : '\n' ∉ fmt q.x ∧ '\n' ∉ fmt q.y) : '\n' ∉ point_line fmt q := by
  simp only [point_line, List.mem_append, List.mem_singleton, not_or]
  exact ⟨⟨hq.1, by decide⟩, hq.2⟩

theorem gnuplot_output_lines {R : Type} (fmt : R → List Char) :
    ∀ (p : Path R), (∀ q ∈ p, '\n' ∉ fmt q.x ∧ '\n' ∉ fmt q.y) →
      lines_from (gnuplot_output fmt [] p) [] = p.map (point_line fmt) := by
  intro p
  induction p with
  | nil => intro _; simp [gnuplot_output, lines_from]
  | cons q t ih =>
    intro hp
    have h1 : gnuplot_output fmt [] (q :: t)
        = gnuplot_output fmt (point_line fmt q ++ ['\n']) t := by
      simp [gnuplot_output, point_line]
    rw [h1, gnuplot_output_append, List.append_assoc, List.singleton_append,
      lines_from_line _ _ _ (point_line_no_newline fmt q (hp q (List.mem_cons_self _ _))),
      ih (fun r hr => hp r (List.mem_cons_of_mem _ hr))]
    simp

theorem gnuplot_output_text {R : Type} (fmt : R → List Char) :
    ∀ (p : Path R),
      gnuplot_output fmt [] p = (p.map (fun q => point_line fmt q ++ ['\n'])).flatten := by
  intro p
  induction p with
  | nil => rfl
  | cons q t ih =>
    have h1 : gnuplot_output fmt [] (q :: t)
        = gnuplot_output fmt (point_line fmt q ++ ['\n']) t := by
      simp [gnuplot_output, point_line]
    rw [h1, gnuplot_output_append, ih]
    simp

theorem string_append_cancel (d a b : String) (h : d ++ a = d ++ b) : a = b := by
  have := congrArg String.data h
  simp only [String.data_append] at this
  exact String.ext (List.append_cancel_left this)

theorem output_names_nodup (dir : String) : (output_names dir).Nodup := by
  have h : output_names dir =
      ["control_points.txt", "trajectory_points.txt", "left_points.txt", "right_points.txt",
       "velocity.txt", "left_velocity.txt", "right_velocity.txt", "reconstructed_points.txt",
       "environment_points.txt"].map (fun n => dir ++ n) := rfl
  rw [h]
  exact List.Nodup.map (fun a b hab => string_append_cancel dir a b hab) (by decide)

theorem open_out_file_ok {R : Type} (w : World R) (name x : String)
    (h : open_out_file w name = Except.ok x) : x = name := by
  unfold open_out_file at h
  split at h
  · injection h with h; exact h.symm
  · cases h

theorem liftExn_ok {α : Type} (x : Except Exn α) (a : α) (h : liftExn x = Except.ok a) :
    x = Except.ok a := by
  cases x with
  | ok b => simpa [liftExn] using h
  | error e => simp [liftExn] at h

/-- C8: after a successful run, `main` has written the eight sequences of the
engine, each taken from its own accessor, to eight distinct files of the
output directory (and the environment to a ninth); and for every sequence `p`
the text that `gnuplot_output` emits is, point by point in the order of the
sequence, `x_i`, a tab, `y_i` and a newline; as the text of a number holds
no newline, these are exactly `|p|` lines. -/
theorem main_writes_each_sequence {R : Type} (w : World R) (files : List (String × List Char))
    (h : main w = Run.success files) :
    (∃ params traj p dir environment,
      w.compute params traj = Except.ok p ∧
      files =
        [ (dir ++ "control_points.txt", gnuplot_output w.fmt [] p.control_points),
          (dir ++ "trajectory_points.txt", gnuplot_output w.fmt [] p.get_path),
          (dir ++ "left_points.txt", gnuplot_output w.fmt [] p.get_left),
          (dir ++ "right_points.txt", gnuplot_output w.fmt [] p.get_right),
          (dir ++ "velocity.txt", gnuplot_output w.fmt [] p.get_velocity),
          (dir ++ "left_velocity.txt", gnuplot_output w.fmt [] p.get_left_velocity),
          (dir ++ "right_velocity.txt", gnuplot_output w.fmt [] p.get_right_velocity),
          (dir ++ "reconstructed_points.txt", gnuplot_output w.fmt [] p.get_reconstructed),
          (dir ++ "environment_points.txt", gnuplot_output w.fmt [] environment) ]) ∧
      (files.map Prod.fst).Nodup ∧
      ∀ seq : Path R,
        gnuplot_output w.fmt [] seq
          = (seq.map (fun q => point_line w.fmt q ++ ['\n'])).flatten ∧
        ((∀ q ∈ seq, '\n' ∉ w.fmt q.x ∧ '\n' ∉ w.fmt q.y) →
          lines_from (gnuplot_output w.fmt [] seq) [] = seq.map (point_line w.fmt) ∧
            (lines_from (gnuplot_output w.fmt [] seq) []).length = seq.length) := by
  have hbody : main_body w = Except.ok files := by
    unfold main at h
    cases hb : main_body w with
    | ok fs => rw [hb] at h; simp only [Run.success.injEq] at h; rw [h]
    | error a =>
      rw [hb] at h
      cases a with
      | throw e => cases e <;> simp at h
      | out_of_bounds i n => simp at h
      | no_fuel => simp at h
  unfold main_body at hbody
  obtain ⟨name, -, hbody⟩ := bind_eq_ok _ _ _ hbody
  obtain ⟨ctrl_p, -, hbody⟩ := bind_eq_ok _ _ _ hbody
  obtain ⟨traj, -, hbody⟩ := bind_eq_ok _ _ _ hbody
  obtain ⟨params, -, hbody⟩ := bind_eq_ok _ _ _ hbody
  obtain ⟨p, hp, hbody⟩ := bind_eq_ok _ _ _ hbody
  obtain ⟨dir0, -, hbody⟩ := bind_eq_ok _ _ _ hbody
  obtain ⟨dir, -, hbody⟩ := bind_eq_ok _ _ _ hbody
  obtain ⟨f1, e1, hbody⟩ := bind_eq_ok _ _ _ hbody
  obtain ⟨f2, e2, hbody⟩ := bind_eq_ok _ _ _ hbody
  obtain ⟨f3, e3, hbody⟩ := bind_eq_ok _ _ _ hbody
  obtain ⟨f4, e4, hbody⟩ := bind_eq_ok _ _ _ hbody
  obtain ⟨f5, e5, hbody⟩ := bind_eq_ok _ _ _ hbody
  obtain ⟨f6, e6, hbody⟩ := bind_eq_ok _ _ _ hbody
  obtain ⟨f7, e7, hbody⟩ := bind_eq_ok _ _ _ hbody
  obtain ⟨f8, e8, hbody⟩ := bind_eq_ok _ _ _ hbody
  obtain ⟨f9, e9, hbody⟩ := bind_eq_ok _ _ _ hbody
  obtain ⟨environment, -, hbody⟩ := bind_eq_ok _ _ _ hbody
  injection hbody with hfiles
  have e1 := open_out_file_ok w _ _ e1
  have e2 := open_out_file_ok w _ _ e2
  have e3 := open_out_file_ok w _ _ e3
  have e4 := open_out_file_ok w _ _ e4
  have e5 := open_out_file_ok w _ _ e5
  have e6 := open_out_file_ok w _ _ e6
  have e7 := open_out_file_ok w _ _ e7
  have e8 := open_out_file_ok w _ _ e8
  have e9 := open_out_file_ok w _ _ e9
  subst e1 e2 e3 e4 e5 e6 e7 e8 e9
  subst hfiles
  refine ⟨⟨params, traj, p, dir, environment, liftExn_ok _ _ hp, rfl⟩, ?_, ?_⟩
  · exact output_names_nodup dir
  · intro seq
    refine ⟨gnuplot_output_text w.fmt seq, ?_⟩
    intro hseq
    have hl := gnuplot_output_lines w.fmt seq hseq
    exact ⟨hl, by rw [hl, List.length_map]⟩

/-- Evaluation of C8 on the three-point trajectory. -/
theorem main_writes_each_sequence_witness :
    main (sampleWorld threePoints []) = Run.success sampleFiles ∧
    (∃ params traj p dir environment,
      (sampleWorld threePoints []).compute params traj = Except.ok p ∧
      sampleFiles =
        [ (dir ++ "control_points.txt", gnuplot_output (sampleWorld threePoints []).fmt [] p.control_points),
          (dir ++ "trajectory_points.txt", gnuplot_output (sampleWorld threePoints []).fmt [] p.get_path),
          (dir ++ "left_points.txt", gnuplot_output (sampleWorld threePoints []).fmt [] p.get_left),
          (dir ++ "right_points.txt", gnuplot_output (sampleWorld threePoints []).fmt [] p.get_right),
          (dir ++ "velocity.txt", gnuplot_output (sampleWorld threePoints []).fmt [] p.get_velocity),
          (dir ++ "left_velocity.txt", gnuplot_output (sampleWorld threePoints []).fmt [] p.get_left_velocity),
          (dir ++ "right_velocity.txt", gnuplot_output (sampleWorld threePoints []).fmt [] p.get_right_velocity),
          (dir ++ "reconstructed_points.txt", gnuplot_output (sampleWorld threePoints []).fmt [] p.get_reconstructed),
          (dir ++ "environment_points.txt", gnuplot_output (sampleWorld threePoints []).fmt [] environment) ]) ∧
      (sampleFiles.map Prod.fst).Nodup ∧
      ∀ seq : Path Int,
        gnuplot_output (sampleWorld threePoints []).fmt [] seq
          = (seq.map (fun q => point_line (sampleWorld threePoints []).fmt q ++ ['\n'])).flatten ∧
        ((∀ q ∈ seq, '\n' ∉ (sampleWorld threePoints []).fmt q.x ∧ '\n' ∉ (sampleWorld threePoints []).fmt q.y) →
          lines_from (gnuplot_output (sampleWorld threePoints []).fmt [] seq) [] = seq.map (point_line (sampleWorld threePoints []).fmt) ∧
            (lines_from (gnuplot_output (sampleWorld threePoints []).fmt [] seq) []).length = seq.length) :=
  ⟨by decide, main_writes_each_sequence (sampleWorld threePoints []) sampleFiles (by decide)⟩

/-! ### The smoother -/

theorem relax_at_pinned {R : Type} [Add R] [Sub R] [Mul R] [OfNat R 2]
    (alpha beta : R) (orig p : Path R) (i j : Nat) (q : Position R)
    (hq : p[j]? = some q) (htag : q.tag = 1) :
    (relax_at alpha beta orig p i)[j]? = some q := by
  unfold relax_at
  split
  · rename_i o a c b ho ha hc hb
    by_cases hc1 : c.tag = 1
    · simp [hc1, hq]
    · have hij : i ≠ j := by
        intro e
        subst e
        rw [hc] at hq
        injection hq with hq
        exact hc1 (hq ▸ htag)
      simp [hc1, List.getElem?_set, hij, hq]
  · exact hq

theorem smooth_pass_pinned {R : Type} [Add R] [Sub R] [Mul R] [OfNat R 2]
    (alpha beta : R) (orig p : Path R) (j : Nat) (q : Position R)
    (hq : p[j]? = some q) (htag : q.tag = 1) :
    (smooth_pass alpha beta orig p)[j]? = some q := by
  unfold smooth_pass
  generalize List.range (p.length - 2) = ks
  induction ks generalizing p with
  | nil => exact hq
  | cons k ks ih =>
    simp only [List.foldl_cons]
    exact ih _ (relax_at_pinned alpha beta orig p (k + 1) j q hq htag)

theorem smooth_pass_short {R : Type} [Add R] [Sub R] [Mul R] [OfNat R 2]
    (alpha beta : R) (orig p : Path R) (h : p.length < 3) :
    smooth_pass alpha beta orig p = p := by
  unfold smooth_pass
  have : p.length - 2 = 0 := by omega
  rw [this]
  rfl

/-- C5 (pinning invariant): in the smoother of the specification, every
control point tagged pinned (tag 1) has exactly its input coordinates after
smoothing, for all weights and every number of passes. -/
theorem smooth_keeps_pinned_points {R : Type} [Add R] [Sub R] [Mul R] [OfNat R 2]
    (raw : Path R) (alpha beta : R) (passes i : Nat)
    (q : Position R) (hq : raw[i]? = some q) (htag : q.tag = 1) :
    (smooth raw alpha beta passes)[i]? = some q := by
  induction passes with
  | zero => exact hq
  | succ n ih => exact smooth_pass_pinned alpha beta raw _ i q ih htag

/-- C7 (degenerate smoothing): in the smoother of the specification, a path
with fewer than 3 points is returned unchanged, for all weights and every
number of passes. -/
theorem smooth_short_path_unchanged {R : Type} [Add R] [Sub R] [Mul R] [OfNat R 2]
    (raw : Path R) (alpha beta : R) (passes : Nat)
    (h : raw.length < 3) : smooth raw alpha beta passes = raw := by
  induction passes with
  | zero => rfl
  | succ n ih =>
    show smooth_pass alpha beta raw (smooth raw alpha beta n) = raw
    rw [ih]
    exact smooth_pass_short alpha beta raw raw h

/-- Evaluation of C5: four points over the integers, the last two pinned, two
passes with both weights 1. -/
theorem smooth_keeps_pinned_points_witness :
    (smooth ([⟨0, 0, 0⟩, ⟨0, 5, 5⟩, ⟨1, 10, 0⟩, ⟨1, 12, 0⟩] : Path Int) 1 1 2)[2]?
      = some ⟨1, 10, 0⟩ :=
  smooth_keeps_pinned_points ([⟨0, 0, 0⟩, ⟨0, 5, 5⟩, ⟨1, 10, 0⟩, ⟨1, 12, 0⟩] : Path Int) 1 1 2 2
    ⟨1, 10, 0⟩ (by decide) (by decide)

/-- Evaluation of C7: the two-point trajectory with both points pinned. -/
theorem smooth_short_path_unchanged_witness :
    smooth ([⟨1, 0, 0⟩, ⟨1, 3, 4⟩] : Path Int) 1 1 5 = [⟨1, 0, 0⟩, ⟨1, 3, 4⟩] :=
  smooth_short_path_unchanged ([⟨1, 0, 0⟩, ⟨1, 3, 4⟩] : Path Int) 1 1 5 (by decide)

end PathPlannerDemo
